import Mathlib

/-!
# Log-source resolver (`src/logmill.cpp`)

A shallow embedding of `RLogMill`: the constructor, the worker body `run()`,
the format probe `fetchLog()`, and the accessors `isFinished()`, `getStatus()`,
`getError()`, `getLog()`.

The concrete log readers (`Mal4sLog`, `CustomLog`, their base `RCommitLog`),
the settings object and the filesystem predicates are collaborators declared
outside `logmill.cpp`; they enter the embedding as the parameter `Env`, so
every theorem stated for an arbitrary `Env` holds for every (deterministic)
behaviour of those collaborators: a reader may raise either of the two
exceptions `run()` catches at any call, and the filesystem queries made after
the `try` statement may throw `filesystem_error`, which nothing catches.
-/

namespace LogMill

/-! ## Collaborators -/

/-- The two exception types caught by `run()`: `SeekLogException` and
`SDLAppException` (whose `what()` is the carried message). -/
inductive Exn where
  | seekLog : Exn
  | sdlApp (what : String) : Exn
  deriving DecidableEq

/-- The log reader classes instantiated by `fetchLog`. -/
inductive Variant where
  | mal4s : Variant
  | custom : Variant
  deriving DecidableEq

/-- A commit record; `run()` reads only `timestamp` (a `time_t`). -/
structure RCommit where
  timestamp : Int
  username : String
  deriving DecidableEq

/-- A `RCommitLog*` that is not null: the dynamic class of the object and its
internal state. -/
structure Handle (σ : Type) where
  variant : Variant
  st : σ
  deriving DecidableEq

/-- Everything `logmill.cpp` calls but does not define. `σ` is the internal
state of a log reader object.
* `create v path` is `new Mal4sLog(path)` / `new CustomLog(path)`;
* `checkFormat`, `isFinished`, `nextCommit`, `bufferCommit` are the virtual
  methods of `RCommitLog` used by `logmill.cpp`; `nextCommit` yields `some c`
  when the call returned `true` having stored `c` in its reference argument and
  `none` when it returned `false`;
* `is_directory`, `fileExists` are `boost::filesystem::is_directory` and
  `boost::filesystem::exists`; both throw `boost::filesystem::filesystem_error`
  when the path cannot be examined (for instance a component without search
  permission or an over-long name), which is the answer `none`;
* `win32` tells whether `_WIN32` is defined for the build. -/
structure Env (σ : Type) where
  create : Variant → String → Except Exn σ
  checkFormat : Variant → σ → Except Exn (Bool × σ)
  isFinished : Variant → σ → Bool
  nextCommit : Variant → σ → Except Exn (Option RCommit × σ)
  bufferCommit : Variant → σ → RCommit → σ
  is_directory : String → Option Bool
  fileExists : String → Option Bool
  win32 : Bool

/-- The fields of `gGourceSettings` read by `logmill.cpp`. `shutdown` may be
flipped by another thread while the worker runs, so it is the sequence of
values the seek loop observes: `shutdown k` is what the `k`-th evaluation of
the loop condition reads. -/
structure GourceSettings where
  log_format : String
  start_timestamp : Int
  stop_timestamp : Int
  shutdown : Nat → Bool
  default_path : Bool

/-! ## `fetchLog` -/

/-- What `fetchLog` does that is visible outside its return value, in order:
the line `FATAL: No log specified and no log read from STDIN.` written to
`stderr` (`fatal`), constructor calls, `checkFormat`
calls and `delete`s. (`debugLog` calls are not recorded.) -/
inductive Event where
  | fatal : Event
  | create (v : Variant) : Event
  | check (v : Variant) : Event
  | delete (v : Variant) : Event
  deriving DecidableEq

/-- The outcome of a piece of `fetchLog`: the events so far, and either an
exception, a `return clog` (`some h`), or falling through (`none`). -/
abbrev Probe (σ : Type) := List Event × Except Exn (Option (Handle σ))

/-- Sequencing: `q` runs only when `p` fell through without returning or
raising. -/
def Probe.andThen {σ : Type} (p q : Probe σ) : Probe σ :=
  match p with
  | (ev, .ok none) => (ev ++ q.1, q.2)
  | (ev, r) => (ev, r)

/-- The body of `if(c) { ... }`. -/
def Probe.guard {σ : Type} (c : Bool) (p : Probe σ) : Probe σ :=
  if c then p else ([], .ok none)

/-- The three statements
`clog = new V(logfile); if(clog->checkFormat()) return clog; delete clog;`. -/
def tryVariant {σ : Type} (env : Env σ) (logfile : String) (v : Variant) : Probe σ :=
  match env.create v logfile with
  | .error e => ([Event.create v], .error e)
  | .ok s =>
    match env.checkFormat v s with
    | .error e => ([Event.create v, Event.check v], .error e)
    | .ok (true, s') => ([Event.create v, Event.check v], .ok (some ⟨v, s'⟩))
    | .ok (false, _) => ([Event.create v, Event.check v, Event.delete v], .ok none)

/-- Method `RLogMill::fetchLog(std::string& log_format)`. -/
def fetchLog {σ : Type} (env : Env σ) (logfile : String) (log_format : String) : Probe σ :=
  Probe.andThen
    (Probe.guard (log_format.length == 0 && logfile != "-") ([Event.fatal], .ok none))
    (if log_format.length > 0 then
      Probe.andThen
        (Probe.guard (log_format == "mal4s") (tryVariant env logfile Variant.mal4s))
        (Probe.andThen
          (Probe.guard (log_format == "custom") (tryVariant env logfile Variant.custom))
          ([], .ok none))
    else
      Probe.andThen (tryVariant env logfile Variant.mal4s)
        (Probe.andThen (tryVariant env logfile Variant.custom) ([], .ok none)))

/-! ## The resolver object -/

/-- Modelled from the spec: the status enumeration of `logmill.h`, whose
declaration is not part of `logmill.cpp`; four values in the order
`STARTUP < FETCHING < SUCCESS, FAILURE`. -/
def LOGMILL_STATE_STARTUP : Nat := 0

/-- Modelled from the spec: second value of the status enumeration. -/
def LOGMILL_STATE_FETCHING : Nat := 1

/-- Modelled from the spec: third value of the status enumeration. -/
def LOGMILL_STATE_SUCCESS : Nat := 2

/-- Modelled from the spec: fourth value of the status enumeration. -/
def LOGMILL_STATE_FAILURE : Nat := 3

/-- One entry of the record of what happened to a resolver: an assignment of
`v` to `logmill_thread_state`, or an event of `fetchLog`. -/
inductive Step where
  | status (v : Nat) : Step
  | probe (e : Event) : Step
  deriving DecidableEq

/-- The data members of `RLogMill`. `thread` is `true` while the member
`thread` is non-null. `history` is not a member: it lists, oldest first, every
assignment to `logmill_thread_state` and every event of `fetchLog`. -/
structure RLogMill (σ : Type) where
  logfile : String
  logmill_thread_state : Nat
  clog : Option (Handle σ)
  error : String
  thread : Bool
  history : List Step
  deriving DecidableEq

/-- The assignment `logmill_thread_state = v`. -/
def RLogMill.setState {σ : Type} (m : RLogMill σ) (v : Nat) : RLogMill σ :=
  { m with logmill_thread_state := v, history := m.history ++ [Step.status v] }

/-- The constructor `RLogMill::RLogMill(logfile)`, up to the creation of the
worker thread (`error` is default-constructed, hence empty). -/
def RLogMill.new {σ : Type} (logfile : String) : RLogMill σ :=
  { logfile := logfile
    logmill_thread_state := LOGMILL_STATE_STARTUP
    clog := none
    error := ""
    thread := true
    history := [Step.status LOGMILL_STATE_STARTUP] }

/-- How the start-timestamp loop of `run()` ends: normally, by an exception
out of `nextCommit` (called on the log in state `s`), or not within the given
number of iterations (the log having reached state `s`). -/
inductive SeekOut (σ : Type) where
  | done (s : σ) : SeekOut σ
  | raised (e : Exn) (s : σ) : SeekOut σ
  | running (s : σ) : SeekOut σ
  deriving DecidableEq

/-- The loop
`while(!shutdown && !clog->isFinished()) { if(clog->nextCommit(commit) &&
commit.timestamp >= start_timestamp) { clog->bufferCommit(commit); break; } }`
of `run()`. `fuel` bounds the number of evaluations of the loop condition and
`k` counts the evaluations already made. -/
def seekLoop {σ : Type} (env : Env σ) (shutdown : Nat → Bool) (start_timestamp : Int)
    (v : Variant) : Nat → Nat → σ → SeekOut σ
  | 0, _, s => SeekOut.running s
  | fuel + 1, k, s =>
    if !shutdown k && !env.isFinished v s then
      match env.nextCommit v s with
      | .error e => SeekOut.raised e s
      | .ok (some commit, s') =>
        if commit.timestamp ≥ start_timestamp then
          SeekOut.done (env.bufferCommit v s' commit)
        else seekLoop env shutdown start_timestamp v fuel (k + 1) s'
      | .ok (none, s') => seekLoop env shutdown start_timestamp v fuel (k + 1) s'
    else SeekOut.done s

/-- How the `try` block of `run()` ends. In each case the resolver carries the
value of `clog` at that point. -/
inductive TryOut (σ : Type) where
  | completed (m : RLogMill σ) : TryOut σ
  | raised (m : RLogMill σ) (e : Exn) : TryOut σ
  | running (m : RLogMill σ) : TryOut σ
  deriving DecidableEq

/-- The resolver once `fetchLog` has run: its events are appended to the
record. -/
def RLogMill.probed {σ : Type} (m : RLogMill σ) (events : List Event) : RLogMill σ :=
  { m with history := m.history ++ events.map Step.probe }

/-- The `try` block of `run()`: `clog = fetchLog(log_format);` followed by the
start-timestamp seek. An exception out of `fetchLog` leaves `clog` unassigned;
an exception out of the seek leaves `clog` pointing to the log. -/
def tryBlock {σ : Type} (fuel : Nat) (env : Env σ) (gs : GourceSettings)
    (log_format : String) (m : RLogMill σ) : TryOut σ :=
  let m0 := m.probed (fetchLog env m.logfile log_format).1
  match (fetchLog env m.logfile log_format).2 with
  | .error e => TryOut.raised m0 e
  | .ok none => TryOut.completed { m0 with clog := none }
  | .ok (some h) =>
    if gs.start_timestamp ≠ 0 then
      match seekLoop env gs.shutdown gs.start_timestamp h.variant fuel 0 h.st with
      | SeekOut.done s => TryOut.completed { m0 with clog := some ⟨h.variant, s⟩ }
      | SeekOut.raised e s => TryOut.raised { m0 with clog := some ⟨h.variant, s⟩ } e
      | SeekOut.running s => TryOut.running { m0 with clog := some ⟨h.variant, s⟩ }
    else TryOut.completed { m0 with clog := some h }

/-- The two `catch` clauses of `run()`. -/
def catchExn {σ : Type} (m : RLogMill σ) : Exn → RLogMill σ
  | Exn.seekLog => { m with error := "unable to read log file" }
  | Exn.sdlApp what => { m with error := what }

/-- The block `if(!clog && error.empty()) { ... }` of `run()`, with the branch
that exists only when `_WIN32` is defined. The block stands after the `try`
statement, so a `filesystem_error` thrown by `is_directory` or `exists` is
caught by nothing: the result is then `none`, otherwise the resolver after the
block. -/
def classify {σ : Type} (env : Env σ) (gs : GourceSettings) (log_format : String)
    (m : RLogMill σ) : Option (RLogMill σ) :=
  if m.clog.isNone && m.error.length == 0 then
    match env.is_directory m.logfile with
    | none => none
    | some true =>
      if !(log_format.length == 0) then
        if gs.start_timestamp ≠ 0 || gs.stop_timestamp ≠ 0 then
          some { m with error := "failed to generate log file for the specified time period" }
        else
          some { m with error := "failed to generate log file" }
      else if env.win32 && gs.default_path then
        match env.fileExists "./gource.exe" with
        | none => none
        | some true => some { m with error := "" }
        | some false => some { m with error := "directory not supported" }
      else
        some { m with error := "directory not supported" }
    | some false =>
      some { m with
        error := "unsupported log format (you may need to regenerate your log file)" }
  else some m

/-- The last statement of `run()`:
`logmill_thread_state = clog ? LOGMILL_STATE_SUCCESS : LOGMILL_STATE_FAILURE`. -/
def publish {σ : Type} (m : RLogMill σ) : RLogMill σ :=
  m.setState (if m.clog.isSome then LOGMILL_STATE_SUCCESS else LOGMILL_STATE_FAILURE)

/-- Where the worker stands after the `try` statement: still inside the seek
loop, or past the `try` statement and its `catch` clauses. -/
inductive AfterTry (σ : Type) where
  | inLoop (m : RLogMill σ) : AfterTry σ
  | past (m : RLogMill σ) : AfterTry σ
  deriving DecidableEq

/-- The `try` statement of `run()` together with its `catch` clauses. -/
def tryCatch {σ : Type} (fuel : Nat) (env : Env σ) (gs : GourceSettings)
    (log_format : String) (m : RLogMill σ) : AfterTry σ :=
  match tryBlock fuel env gs log_format m with
  | TryOut.running m2 => AfterTry.inLoop m2
  | TryOut.completed m2 => AfterTry.past m2
  | TryOut.raised m2 e => AfterTry.past (catchExn m2 e)

/-- How far the worker got, with the resolver as it stands at that point:
still inside the seek loop after `fuel` iterations; left `run()` by a
`filesystem_error` that nothing catches; or returned from `run()`. -/
inductive RunOut (σ : Type) where
  | inLoop (m : RLogMill σ) : RunOut σ
  | uncaught (m : RLogMill σ) : RunOut σ
  | returned (m : RLogMill σ) : RunOut σ
  deriving DecidableEq

/-- The resolver carried by a `RunOut`. -/
def RunOut.mill {σ : Type} : RunOut σ → RLogMill σ
  | RunOut.inLoop m => m
  | RunOut.uncaught m => m
  | RunOut.returned m => m

/-- Method `RLogMill::run()`, the worker body, with how it ends. The
signal-mask calls have no effect on the members and are left out. -/
def runOut {σ : Type} (fuel : Nat) (env : Env σ) (gs : GourceSettings) (m : RLogMill σ) :
    RunOut σ :=
  let m1 := m.setState LOGMILL_STATE_FETCHING
  let log_format := gs.log_format
  match tryCatch fuel env gs log_format m1 with
  | AfterTry.inLoop m2 => RunOut.inLoop m2
  | AfterTry.past m2 =>
    match classify env gs log_format m2 with
    | none => RunOut.uncaught m2
    | some m3 => RunOut.returned (publish m3)

/-- The resolver as the worker body `RLogMill::run()` leaves it. When the seek
loop has not ended within `fuel` iterations, or when `run()` is left by an
uncaught `filesystem_error`, no terminal status has been written and the
status is still `FETCHING`. -/
def run {σ : Type} (fuel : Nat) (env : Env σ) (gs : GourceSettings) (m : RLogMill σ) :
    RLogMill σ :=
  (runOut fuel env gs m).mill

/-- Method `RLogMill::isFinished()`. -/
def RLogMill.isFinished {σ : Type} (m : RLogMill σ) : Bool :=
  m.logmill_thread_state > LOGMILL_STATE_FETCHING

/-- Method `RLogMill::getStatus()`. -/
def RLogMill.getStatus {σ : Type} (m : RLogMill σ) : Nat := m.logmill_thread_state

/-- Method `RLogMill::getError()`. -/
def RLogMill.getError {σ : Type} (m : RLogMill σ) : String := m.error

/-- Method `RLogMill::getLog()`: the returned pointer and the resolver afterwards.
`SDL_WaitThread` returns once the worker has ended, so `m` is the resolver as
the worker left it. -/
def RLogMill.getLog {σ : Type} (m : RLogMill σ) : Option (Handle σ) × RLogMill σ :=
  let m1 := if m.thread then { m with thread := false } else m
  (m1.clog, m1)

/-- Method `RLogMill::abort()`. -/
def RLogMill.abort {σ : Type} (m : RLogMill σ) : RLogMill σ :=
  if !m.thread then m else { m with thread := false }

/-- Method `RLogMill::~RLogMill()`: the log object it deletes, if any. -/
def RLogMill.destroy {σ : Type} (m : RLogMill σ) : Option (Handle σ) :=
  let m1 := m.abort
  if m1.clog.isSome then m1.clog else none

/-- What a caller can observe of a resolver: the handle `getLog()` returns, the
error string and the status. -/
def RLogMill.outcome {σ : Type} (m : RLogMill σ) : Option (Handle σ) × String × Nat :=
  (m.getLog.1, m.getError, m.getStatus)

/-- The log reader class a format hint names, if any: the two string
comparisons of the hinted branch of `fetchLog`. -/
def variantNamed (log_format : String) : Option Variant :=
  if log_format == "mal4s" then some Variant.mal4s
  else if log_format == "custom" then some Variant.custom
  else none

/-- Whether an event is a `checkFormat` call. -/
def Event.isCheck : Event → Bool
  | Event.check _ => true
  | _ => false

/-! ## A finite in-memory log -/

/-- Modelled from the spec: the record iteration of `RCommitLog` (declared
outside `logmill.cpp`) over a finite list of records that all parse, with the
glossary's push-back: a buffered record is delivered again as the next read. -/
structure ListLog where
  records : List RCommit
  buffered : Option RCommit
  deriving DecidableEq

/-- Modelled from the spec: `nextCommit` of the finite log; the buffered
record first, then the records in order, `false` when none is left. -/
def ListLog.nextCommit (l : ListLog) : Option RCommit × ListLog :=
  match l.buffered with
  | some c => (some c, { l with buffered := none })
  | none =>
    match l.records with
    | [] => (none, l)
    | c :: rest => (some c, { l with records := rest })

/-- Modelled from the spec: `isFinished` of the finite log, true once every
record of the source has been read. -/
def ListLog.isFinished (l : ListLog) : Bool := l.records.isEmpty

/-- Modelled from the spec: `bufferCommit` of the finite log. -/
def ListLog.bufferCommit (l : ListLog) (c : RCommit) : ListLog :=
  { l with buffered := some c }

/-- Modelled from the spec: an environment whose log readers iterate over the
finite list `records`; `valid v` tells whether `checkFormat` of variant `v`
accepts the source (it consumes nothing), `dir` is the directory predicate;
neither constructor nor any method raises, the filesystem queries always
answer; the build is not a Windows one. -/
def listEnv (valid : Variant → Bool) (records : List RCommit) (dir : String → Bool) :
    Env ListLog :=
  { create := fun _ _ => .ok ⟨records, none⟩
    checkFormat := fun v s => .ok (valid v, s)
    isFinished := fun _ s => s.isFinished
    nextCommit := fun _ s => .ok s.nextCommit
    bufferCommit := fun _ s c => s.bufferCommit c
    is_directory := fun p => some (dir p)
    fileExists := fun _ => some false
    win32 := false }

/-- The records a consumer receives from the log by calling `nextCommit` until
it returns `false` or raises, at most `fuel` times. -/
def deliver {σ : Type} (env : Env σ) (v : Variant) : Nat → σ → List RCommit
  | 0, _ => []
  | fuel + 1, s =>
    match env.nextCommit v s with
    | .ok (some c, s') => c :: deliver env v fuel s'
    | _ => []

/-- A record with timestamp `t`. -/
def commitAt (t : Int) : RCommit := ⟨t, ""⟩

/-! ## Auxiliary definitions used in the statements and proofs -/

/-- The diagnostic in front of the auto-detect sequence. -/
def fatalLine (logfile : String) : List Event :=
  if logfile != "-" then [Event.fatal] else []

/-- The members `logfile`, `logmill_thread_state` and `thread` agree. -/
def SameFrame {σ : Type} (m m2 : RLogMill σ) : Prop :=
  m2.logfile = m.logfile ∧ m2.logmill_thread_state = m.logmill_thread_state ∧
  m2.thread = m.thread

/-- The resolver carried by the outcome of the `try` block. -/
def TryOut.mill {σ : Type} : TryOut σ → RLogMill σ
  | TryOut.completed m => m
  | TryOut.raised m _ => m
  | TryOut.running m => m

/-- The error text the classification block chooses on a build without
`_WIN32`, as a function of the directory test, the hint and the timestamp
filters. -/
def failureText (isDir : Bool) (log_format : String) (start stop : Int) : String :=
  if isDir then
    if log_format = "" then "directory not supported"
    else if start ≠ 0 ∨ stop ≠ 0 then
      "failed to generate log file for the specified time period"
    else "failed to generate log file"
  else "unsupported log format (you may need to regenerate your log file)"

/-- A source every reader accepts and whose every `nextCommit` raises `e`. -/
def raisingReadEnv (e : Exn) : Env Unit :=
  { create := fun _ _ => .ok ()
    checkFormat := fun _ s => .ok (true, s)
    isFinished := fun _ _ => false
    nextCommit := fun _ _ => .error e
    bufferCommit := fun _ s _ => s
    is_directory := fun _ => some false
    fileExists := fun _ => some false
    win32 := false }

/-- A source whose reader constructors raise `e`. -/
def raisingCreateEnv (e : Exn) : Env Unit :=
  { create := fun _ _ => .error e
    checkFormat := fun _ s => .ok (false, s)
    isFinished := fun _ _ => true
    nextCommit := fun _ s => .ok (none, s)
    bufferCommit := fun _ s _ => s
    is_directory := fun _ => some false
    fileExists := fun _ => some false
    win32 := false }

/-- A source no reader accepts, at a path the filesystem queries cannot
examine: `is_directory` and `exists` throw `filesystem_error`. -/
def unreadableEnv : Env Unit :=
  { create := fun _ _ => .ok ()
    checkFormat := fun _ s => .ok (false, s)
    isFinished := fun _ _ => true
    nextCommit := fun _ s => .ok (none, s)
    bufferCommit := fun _ s _ => s
    is_directory := fun _ => none
    fileExists := fun _ => none
    win32 := false }

/-- Where the seek leaves a finite log that had nothing buffered: the first
record at or after the target is buffered and the records after it are still
to be read; when there is no such record everything has been read. -/
def seekTarget (T : Int) (records : List RCommit) : ListLog :=
  match records.dropWhile (fun c => decide (c.timestamp < T)) with
  | [] => ⟨[], none⟩
  | c :: rest => ⟨rest, some c⟩

/-! ## Lemmas on `fetchLog` -/

theorem length_eq_zero_iff (s : String) : s.length = 0 ↔ s = "" := by
  cases s with
  | mk l =>
    constructor
    · intro h
      have : l = [] := List.length_eq_zero.mp h
      subst this; rfl
    · intro h
      rw [h]; rfl

theorem andThen_nil_right {σ : Type} (p : Probe σ) :
    Probe.andThen p ([], .ok none) = p := by
  rcases p with ⟨ev, r⟩
  cases r with
  | error e => rfl
  | ok o =>
    cases o with
    | none => simp [Probe.andThen]
    | some h => rfl

theorem andThen_nil_left {σ : Type} (p : Probe σ) :
    Probe.andThen ([], .ok none) p = p := by
  simp [Probe.andThen]

/-- With a non-empty hint `fetchLog` is the single attempt on the named
variant, or nothing at all when the hint names none. -/
theorem fetchLog_hint {σ : Type} (env : Env σ) (logfile hint : String) (h : hint ≠ "") :
    fetchLog env logfile hint =
      match variantNamed hint with
      | some v => tryVariant env logfile v
      | none => ([], .ok none) := by
  have hl : hint.length ≠ 0 := fun h0 => h ((length_eq_zero_iff hint).mp h0)
  have hpos : hint.length > 0 := Nat.pos_of_ne_zero hl
  have hg : (hint.length == 0 && logfile != "-") = false := by simp [hl]
  unfold fetchLog variantNamed
  rw [hg, if_pos hpos]
  by_cases h1 : hint = "mal4s"
  · have h2 : ¬ hint = "custom" := by rw [h1]; decide
    simp [Probe.guard, andThen_nil_right, andThen_nil_left, h1]
  · by_cases h2 : hint = "custom"
    · simp [Probe.guard, andThen_nil_right, andThen_nil_left, h2]
    · simp [Probe.guard, andThen_nil_right, andThen_nil_left, h1, h2]

/-- With an empty hint `fetchLog` is the diagnostic (unless the path is `-`)
followed by the attempt on mal4s and then on custom. -/
theorem fetchLog_auto {σ : Type} (env : Env σ) (logfile : String) :
    fetchLog env logfile "" =
      Probe.andThen (Probe.guard (logfile != "-") ([Event.fatal], .ok none))
        (Probe.andThen (tryVariant env logfile Variant.mal4s)
          (tryVariant env logfile Variant.custom)) := by
  unfold fetchLog
  simp [andThen_nil_right]

/-- The four ways a single attempt can go. -/
theorem tryVariant_cases {σ : Type} (env : Env σ) (logfile : String) (v : Variant) :
    (∃ e, env.create v logfile = .error e ∧
        tryVariant env logfile v = ([Event.create v], .error e)) ∨
    (∃ s e, env.create v logfile = .ok s ∧ env.checkFormat v s = .error e ∧
        tryVariant env logfile v = ([Event.create v, Event.check v], .error e)) ∨
    (∃ s s', env.create v logfile = .ok s ∧ env.checkFormat v s = .ok (true, s') ∧
        tryVariant env logfile v =
          ([Event.create v, Event.check v], .ok (some ⟨v, s'⟩))) ∨
    (∃ s s', env.create v logfile = .ok s ∧ env.checkFormat v s = .ok (false, s') ∧
        tryVariant env logfile v =
          ([Event.create v, Event.check v, Event.delete v], .ok none)) := by
  unfold tryVariant
  cases hc : env.create v logfile with
  | error e => exact Or.inl ⟨e, rfl, rfl⟩
  | ok s =>
    cases hk : env.checkFormat v s with
    | error e =>
      refine Or.inr (Or.inl ⟨s, e, rfl, hk, ?_⟩)
      simp only [hk]
    | ok r =>
      rcases r with ⟨b, s'⟩
      cases b
      · refine Or.inr (Or.inr (Or.inr ⟨s, s', rfl, hk, ?_⟩))
        simp only [hk]
      · refine Or.inr (Or.inr (Or.inl ⟨s, s', rfl, hk, ?_⟩))
        simp only [hk]

/-- A single attempt invokes `checkFormat` on no other variant. -/
theorem tryVariant_check {σ : Type} (env : Env σ) (logfile : String) (v w : Variant)
    (h : Event.check w ∈ (tryVariant env logfile v).1) : w = v := by
  rcases tryVariant_cases env logfile v with ⟨e, _, ht⟩ | ⟨s, e, _, _, ht⟩ |
    ⟨s, s', _, _, ht⟩ | ⟨s, s', _, _, ht⟩ <;>
  · rw [ht] at h
    simp at h
    try exact h

/-- A single attempt returns a handle exactly when the constructor returned
and `checkFormat` returned `true`; the handle is the checked object. -/
theorem tryVariant_some_iff {σ : Type} (env : Env σ) (logfile : String) (v : Variant)
    (h : Handle σ) :
    (tryVariant env logfile v).2 = .ok (some h) ↔
      h.variant = v ∧ ∃ s, env.create v logfile = .ok s ∧
        env.checkFormat v s = .ok (true, h.st) := by
  rcases tryVariant_cases env logfile v with ⟨e, hc, ht⟩ | ⟨s, e, hc, hk, ht⟩ |
    ⟨s, s', hc, hk, ht⟩ | ⟨s, s', hc, hk, ht⟩
  · rw [ht]; simp [hc]
  · rw [ht]; simp [hc, hk]
  · rw [ht]
    rcases h with ⟨hv, hs⟩
    simp only [hc, Except.ok.injEq, Option.some.injEq, Handle.mk.injEq, exists_eq_left', hk,
      Prod.mk.injEq, true_and]
    constructor
    · rintro ⟨h1, h2⟩; exact ⟨h1.symm, h2⟩
    · rintro ⟨h1, h2⟩; exact ⟨h1.symm, h2⟩
  · rw [ht]; simp [hc, hk]

/-- A single attempt falls through exactly when the constructor returned and
`checkFormat` returned `false`. -/
theorem tryVariant_none_iff {σ : Type} (env : Env σ) (logfile : String) (v : Variant) :
    (tryVariant env logfile v).2 = .ok none ↔
      ∃ s s', env.create v logfile = .ok s ∧ env.checkFormat v s = .ok (false, s') := by
  rcases tryVariant_cases env logfile v with ⟨e, hc, ht⟩ | ⟨s, e, hc, hk, ht⟩ |
    ⟨s, s', hc, hk, ht⟩ | ⟨s, s', hc, hk, ht⟩
  · rw [ht]; simp [hc]
  · rw [ht]; simp [hc, hk]
  · rw [ht]; simp [hc, hk]
  · rw [ht]; simp [hc, hk]

theorem fetchLog_auto_split {σ : Type} (env : Env σ) (logfile : String) :
    fetchLog env logfile "" =
      (fatalLine logfile ++
        (Probe.andThen (tryVariant env logfile Variant.mal4s)
          (tryVariant env logfile Variant.custom)).1,
       (Probe.andThen (tryVariant env logfile Variant.mal4s)
          (tryVariant env logfile Variant.custom)).2) := by
  rw [fetchLog_auto]
  unfold fatalLine Probe.guard
  by_cases h : (logfile != "-") = true
  · simp only [h, if_true]
    simp [Probe.andThen]
  · simp only [h]
    simp [Probe.andThen]

theorem fatalLine_filter (logfile : String) :
    (fatalLine logfile).filter Event.isCheck = [] := by
  unfold fatalLine
  split <;> rfl

theorem fatalLine_mem (logfile : String) (e : Event) (h : e ∈ fatalLine logfile) :
    e = Event.fatal := by
  unfold fatalLine at h
  split at h
  · simpa using h
  · simp at h

/-! ## C3 and C9: the format probe -/

/-- C3. Auto-detect priority: with an empty hint, for every path and every
behaviour of the readers, `fetchLog` calls `checkFormat` in the order mal4s,
custom (the calls made are an initial part of that sequence); a returned handle
is an object whose `checkFormat` returned `true`, and that call is the last
thing `fetchLog` did; when mal4s validates, the mal4s handle is returned and
the custom reader is neither constructed nor checked; when mal4s is rejected it
is deleted before custom is tried, and custom's handle is returned if it
validates; nothing is returned exactly when both were rejected. -/
theorem fetchLog_auto_detect_priority {σ : Type} (env : Env σ) (logfile : String) :
    ((fetchLog env logfile "").1.filter Event.isCheck <+:
        [Event.check Variant.mal4s, Event.check Variant.custom]) ∧
    (∀ h, (fetchLog env logfile "").2 = .ok (some h) →
        (∃ s, env.create h.variant logfile = .ok s ∧
          env.checkFormat h.variant s = .ok (true, h.st)) ∧
        (fetchLog env logfile "").1.getLast? = some (Event.check h.variant)) ∧
    (∀ s s', env.create Variant.mal4s logfile = .ok s →
        env.checkFormat Variant.mal4s s = .ok (true, s') →
        (fetchLog env logfile "").2 = .ok (some ⟨Variant.mal4s, s'⟩) ∧
        Event.create Variant.custom ∉ (fetchLog env logfile "").1 ∧
        Event.check Variant.custom ∉ (fetchLog env logfile "").1) ∧
    (∀ s s' t t', env.create Variant.mal4s logfile = .ok s →
        env.checkFormat Variant.mal4s s = .ok (false, s') →
        env.create Variant.custom logfile = .ok t →
        env.checkFormat Variant.custom t = .ok (true, t') →
        (fetchLog env logfile "").2 = .ok (some ⟨Variant.custom, t'⟩) ∧
        (fetchLog env logfile "").1 = fatalLine logfile ++
          [Event.create Variant.mal4s, Event.check Variant.mal4s, Event.delete Variant.mal4s,
           Event.create Variant.custom, Event.check Variant.custom]) ∧
    ((fetchLog env logfile "").2 = .ok none ↔
        (∃ s s', env.create Variant.mal4s logfile = .ok s ∧
          env.checkFormat Variant.mal4s s = .ok (false, s')) ∧
        (∃ t t', env.create Variant.custom logfile = .ok t ∧
          env.checkFormat Variant.custom t = .ok (false, t'))) := by
  have hp := fatalLine_filter logfile
  have hm := fatalLine_mem logfile
  have hpre : ∀ l : List Event, (fatalLine logfile ++ l).filter Event.isCheck =
      l.filter Event.isCheck := by
    intro l; rw [List.filter_append, hp]; rfl
  have hnc : Event.create Variant.custom ∉ fatalLine logfile := fun h => by
    have := hm _ h; cases this
  have hnk : Event.check Variant.custom ∉ fatalLine logfile := fun h => by
    have := hm _ h; cases this
  rw [fetchLog_auto_split]
  rcases tryVariant_cases env logfile Variant.mal4s with ⟨e, hc, ht⟩ | ⟨s, e, hc, hk, ht⟩ |
    ⟨s, s', hc, hk, ht⟩ | ⟨s, s', hc, hk, ht⟩
  · rw [ht]
    simp only [Probe.andThen, hpre]
    refine ⟨?_, ?_, ?_, ?_, ?_⟩
    · exact ⟨[Event.check Variant.mal4s, Event.check Variant.custom], rfl⟩
    · intro h hh; cases hh
    · intro s s' h1; rw [hc] at h1; cases h1
    · intro s s' t t' h1; rw [hc] at h1; cases h1
    · constructor
      · intro hh; cases hh
      · rintro ⟨⟨s, s', h1, _⟩, _⟩; rw [hc] at h1; cases h1
  · rw [ht]
    simp only [Probe.andThen, hpre]
    refine ⟨?_, ?_, ?_, ?_, ?_⟩
    · exact ⟨[Event.check Variant.custom], rfl⟩
    · intro h hh; cases hh
    · intro s1 s1' h1 h2; rw [hc] at h1; cases h1; rw [hk] at h2; cases h2
    · intro s1 s1' t t' h1 h2; rw [hc] at h1; cases h1; rw [hk] at h2; cases h2
    · constructor
      · intro hh; cases hh
      · rintro ⟨⟨s1, s1', h1, h2⟩, _⟩; rw [hc] at h1; cases h1; rw [hk] at h2; cases h2
  · rw [ht]
    simp only [Probe.andThen, hpre]
    refine ⟨?_, ?_, ?_, ?_, ?_⟩
    · exact ⟨[Event.check Variant.custom], rfl⟩
    · intro h hh
      cases hh
      exact ⟨⟨s, hc, hk⟩, by simp⟩
    · intro s1 s1' h1 h2
      rw [hc] at h1; cases h1; rw [hk] at h2; cases h2
      refine ⟨rfl, ?_, ?_⟩
      · intro hmem
        rcases List.mem_append.mp hmem with h | h
        · exact hnc h
        · simp at h
      · intro hmem
        rcases List.mem_append.mp hmem with h | h
        · exact hnk h
        · simp at h
    · intro s1 s1' t t' h1 h2; rw [hc] at h1; cases h1; rw [hk] at h2; cases h2
    · constructor
      · intro hh; cases hh
      · rintro ⟨⟨s1, s1', h1, h2⟩, _⟩; rw [hc] at h1; cases h1; rw [hk] at h2; cases h2
  · rw [ht]
    simp only [Probe.andThen, hpre]
    rcases tryVariant_cases env logfile Variant.custom with ⟨e, hc2, ht2⟩ |
      ⟨t, e, hc2, hk2, ht2⟩ | ⟨t, t', hc2, hk2, ht2⟩ | ⟨t, t', hc2, hk2, ht2⟩
    · rw [ht2]
      refine ⟨?_, ?_, ?_, ?_, ?_⟩
      · exact ⟨[Event.check Variant.custom], rfl⟩
      · intro h hh; cases hh
      · intro s1 s1' h1 h2; rw [hc] at h1; cases h1; rw [hk] at h2; cases h2
      · intro s1 s1' t t' _ _ h3; rw [hc2] at h3; cases h3
      · constructor
        · intro hh; cases hh
        · rintro ⟨_, ⟨t, t', h1, _⟩⟩; rw [hc2] at h1; cases h1
    · rw [ht2]
      refine ⟨?_, ?_, ?_, ?_, ?_⟩
      · exact ⟨[], rfl⟩
      · intro h hh; cases hh
      · intro s1 s1' h1 h2; rw [hc] at h1; cases h1; rw [hk] at h2; cases h2
      · intro s1 s1' t1 t1' _ _ h3 h4; rw [hc2] at h3; cases h3; rw [hk2] at h4; cases h4
      · constructor
        · intro hh; cases hh
        · rintro ⟨_, ⟨t1, t1', h3, h4⟩⟩; rw [hc2] at h3; cases h3; rw [hk2] at h4; cases h4
    · rw [ht2]
      refine ⟨?_, ?_, ?_, ?_, ?_⟩
      · exact ⟨[], rfl⟩
      · intro h hh
        cases hh
        exact ⟨⟨t, hc2, hk2⟩, by simp⟩
      · intro s1 s1' h1 h2; rw [hc] at h1; cases h1; rw [hk] at h2; cases h2
      · intro s1 s1' t1 t1' _ _ h3 h4
        rw [hc2] at h3; cases h3; rw [hk2] at h4; cases h4
        exact ⟨rfl, rfl⟩
      · constructor
        · intro hh; cases hh
        · rintro ⟨_, ⟨t1, t1', h3, h4⟩⟩; rw [hc2] at h3; cases h3; rw [hk2] at h4; cases h4
    · rw [ht2]
      refine ⟨?_, ?_, ?_, ?_, ?_⟩
      · exact ⟨[], rfl⟩
      · intro h hh; cases hh
      · intro s1 s1' h1 h2; rw [hc] at h1; cases h1; rw [hk] at h2; cases h2
      · intro s1 s1' t1 t1' _ _ h3 h4; rw [hc2] at h3; cases h3; rw [hk2] at h4; cases h4
      · constructor
        · intro _; exact ⟨⟨s, s', hc, hk⟩, ⟨t, t', hc2, hk2⟩⟩
        · intro _; rfl

/-- C9. Declared format restricts probing: with a non-empty hint, for every
path and every behaviour of the readers, `fetchLog` is exactly the single
attempt on the variant the hint names and does nothing when it names none (no
auto-detect sequence, no diagnostic); so `checkFormat` is invoked on the named
variant only; that variant's handle is returned if and only if its constructor
returned and its `checkFormat` returned `true`; and nothing is returned exactly
when the hint names no variant or the named variant's `checkFormat` returned
`false`. -/
theorem fetchLog_declared_format {σ : Type} (env : Env σ) (logfile hint : String)
    (hne : hint ≠ "") :
    (fetchLog env logfile hint =
        match variantNamed hint with
        | some v => tryVariant env logfile v
        | none => ([], .ok none)) ∧
    (∀ w, Event.check w ∈ (fetchLog env logfile hint).1 → variantNamed hint = some w) ∧
    (∀ h, (fetchLog env logfile hint).2 = .ok (some h) ↔
        variantNamed hint = some h.variant ∧
        ∃ s, env.create h.variant logfile = .ok s ∧
          env.checkFormat h.variant s = .ok (true, h.st)) ∧
    ((fetchLog env logfile hint).2 = .ok none ↔
        variantNamed hint = none ∨
        ∃ v s s', variantNamed hint = some v ∧ env.create v logfile = .ok s ∧
          env.checkFormat v s = .ok (false, s')) := by
  have hf := fetchLog_hint env logfile hint hne
  refine ⟨hf, ?_, ?_, ?_⟩
  · intro w hw
    rw [hf] at hw
    cases hv : variantNamed hint with
    | none => rw [hv] at hw; simp at hw
    | some v =>
      rw [hv] at hw
      rw [tryVariant_check env logfile v w hw]
  · intro h
    rw [hf]
    cases hv : variantNamed hint with
    | none => simp
    | some v =>
      simp only [Option.some.injEq]
      rw [tryVariant_some_iff]
      constructor
      · rintro ⟨h1, h2⟩
        rw [h1]; exact ⟨rfl, h2⟩
      · rintro ⟨h1, h2⟩
        rw [← h1] at h2; exact ⟨h1.symm, h2⟩
  · rw [hf]
    cases hv : variantNamed hint with
    | none => simp
    | some v =>
      simp only [Option.some.injEq, reduceCtorEq, false_or]
      rw [tryVariant_none_iff]
      constructor
      · rintro ⟨s, s', h1, h2⟩
        exact ⟨v, s, s', rfl, h1, h2⟩
      · rintro ⟨w, s, s', h0, h1, h2⟩
        subst h0
        exact ⟨s, s', h1, h2⟩

/-- Witness of C9: the hint `custom` on a source both readers accept; only the
custom reader is checked and its handle is returned. -/
theorem fetchLog_declared_format_witness :
    "custom" ≠ "" ∧
    fetchLog (listEnv (fun _ => true) [commitAt 5] (fun _ => false)) "log.txt" "custom" =
      ([Event.create Variant.custom, Event.check Variant.custom],
        .ok (some ⟨Variant.custom, ⟨[commitAt 5], none⟩⟩)) ∧
    (∀ w, Event.check w ∈
        (fetchLog (listEnv (fun _ => true) [commitAt 5] (fun _ => false)) "log.txt" "custom").1 →
      variantNamed "custom" = some w) :=
  ⟨by decide, rfl,
    (fetchLog_declared_format (listEnv (fun _ => true) [commitAt 5] (fun _ => false))
      "log.txt" "custom" (by decide)).2.1⟩

/-! ## Lemmas on `run` -/

theorem tryBlock_frame {σ : Type} (fuel : Nat) (env : Env σ) (gs : GourceSettings)
    (lf : String) (m : RLogMill σ) :
    SameFrame m (tryBlock fuel env gs lf m).mill ∧
      (tryBlock fuel env gs lf m).mill.error = m.error ∧
      (tryBlock fuel env gs lf m).mill.history =
        m.history ++ (fetchLog env m.logfile lf).1.map Step.probe := by
  unfold tryBlock
  cases hf : (fetchLog env m.logfile lf).2 with
  | error e => exact ⟨⟨rfl, rfl, rfl⟩, rfl, rfl⟩
  | ok o =>
    cases o with
    | none => exact ⟨⟨rfl, rfl, rfl⟩, rfl, rfl⟩
    | some h =>
      simp only
      split
      · cases hs : seekLoop env gs.shutdown gs.start_timestamp h.variant fuel 0 h.st <;>
          exact ⟨⟨rfl, rfl, rfl⟩, rfl, rfl⟩
      · exact ⟨⟨rfl, rfl, rfl⟩, rfl, rfl⟩

theorem catchExn_frame {σ : Type} (m : RLogMill σ) (e : Exn) :
    SameFrame m (catchExn m e) ∧ (catchExn m e).clog = m.clog ∧
      (catchExn m e).history = m.history := by
  cases e <;> exact ⟨⟨rfl, rfl, rfl⟩, rfl, rfl⟩

theorem classify_frame {σ : Type} {env : Env σ} {gs : GourceSettings} {lf : String}
    {m m3 : RLogMill σ} (h : classify env gs lf m = some m3) :
    SameFrame m m3 ∧ m3.clog = m.clog ∧ m3.history = m.history := by
  unfold classify at h
  repeat' split at h
  all_goals first
    | (cases h; done)
    | (cases h; exact ⟨⟨rfl, rfl, rfl⟩, rfl, rfl⟩)

theorem tryCatch_of_running {σ : Type} {fuel : Nat} {env : Env σ} {gs : GourceSettings}
    {lf : String} {m m2 : RLogMill σ} (h : tryBlock fuel env gs lf m = TryOut.running m2) :
    tryCatch fuel env gs lf m = AfterTry.inLoop m2 := by
  unfold tryCatch; rw [h]

theorem tryCatch_of_completed {σ : Type} {fuel : Nat} {env : Env σ} {gs : GourceSettings}
    {lf : String} {m m2 : RLogMill σ} (h : tryBlock fuel env gs lf m = TryOut.completed m2) :
    tryCatch fuel env gs lf m = AfterTry.past m2 := by
  unfold tryCatch; rw [h]

theorem tryCatch_of_raised {σ : Type} {fuel : Nat} {env : Env σ} {gs : GourceSettings}
    {lf : String} {m m2 : RLogMill σ} {e : Exn}
    (h : tryBlock fuel env gs lf m = TryOut.raised m2 e) :
    tryCatch fuel env gs lf m = AfterTry.past (catchExn m2 e) := by
  unfold tryCatch; rw [h]

theorem tryCatch_inLoop {σ : Type} {fuel : Nat} {env : Env σ} {gs : GourceSettings}
    {lf : String} {m m2 : RLogMill σ} (h : tryCatch fuel env gs lf m = AfterTry.inLoop m2) :
    SameFrame m m2 ∧
      m2.history = m.history ++ (fetchLog env m.logfile lf).1.map Step.probe := by
  have hf := tryBlock_frame fuel env gs lf m
  unfold tryCatch at h
  cases ht : tryBlock fuel env gs lf m with
  | running m3 =>
    rw [ht] at h hf
    injection h with h
    subst h; exact ⟨hf.1, hf.2.2⟩
  | completed m3 => rw [ht] at h; cases h
  | raised m3 e => rw [ht] at h; cases h

theorem tryCatch_past {σ : Type} {fuel : Nat} {env : Env σ} {gs : GourceSettings}
    {lf : String} {m m2 : RLogMill σ} (h : tryCatch fuel env gs lf m = AfterTry.past m2) :
    SameFrame m m2 ∧
      m2.history = m.history ++ (fetchLog env m.logfile lf).1.map Step.probe := by
  have hf := tryBlock_frame fuel env gs lf m
  unfold tryCatch at h
  cases ht : tryBlock fuel env gs lf m with
  | running m3 => rw [ht] at h; cases h
  | completed m3 =>
    rw [ht] at h hf
    injection h with h
    subst h; exact ⟨hf.1, hf.2.2⟩
  | raised m3 e =>
    rw [ht] at h hf
    injection h with h
    subst h
    obtain ⟨⟨a, b, c⟩, _, d⟩ := hf
    obtain ⟨⟨a', b', c'⟩, _, d'⟩ := catchExn_frame m3 e
    exact ⟨⟨a'.trans a, b'.trans b, c'.trans c⟩, d'.trans d⟩

theorem tryCatch_past_logfile {σ : Type} {fuel : Nat} {env : Env σ} {gs : GourceSettings}
    {lf : String} {logfile : String} {m2 : RLogMill σ}
    (h : tryCatch fuel env gs lf
      ((RLogMill.new logfile : RLogMill σ).setState LOGMILL_STATE_FETCHING) =
        AfterTry.past m2) : m2.logfile = logfile :=
  (tryCatch_past h).1.1

/-- The outcome of `run` while the worker is still inside the seek loop. -/
theorem runOut_inLoop {σ : Type} {fuel : Nat} {env : Env σ} {gs : GourceSettings}
    {m m2 : RLogMill σ}
    (h : tryCatch fuel env gs gs.log_format (m.setState LOGMILL_STATE_FETCHING) =
      AfterTry.inLoop m2) :
    runOut fuel env gs m = RunOut.inLoop m2 := by
  unfold runOut
  simp only [h]

/-- The outcome of `run` when the classification block is left by an
exception. -/
theorem runOut_uncaught {σ : Type} {fuel : Nat} {env : Env σ} {gs : GourceSettings}
    {m m2 : RLogMill σ}
    (h : tryCatch fuel env gs gs.log_format (m.setState LOGMILL_STATE_FETCHING) =
      AfterTry.past m2)
    (hc : classify env gs gs.log_format m2 = none) :
    runOut fuel env gs m = RunOut.uncaught m2 := by
  unfold runOut
  simp only [h, hc]

/-- The outcome of `run` when the worker reaches the last statement. -/
theorem runOut_returned {σ : Type} {fuel : Nat} {env : Env σ} {gs : GourceSettings}
    {m m2 m3 : RLogMill σ}
    (h : tryCatch fuel env gs gs.log_format (m.setState LOGMILL_STATE_FETCHING) =
      AfterTry.past m2)
    (hc : classify env gs gs.log_format m2 = some m3) :
    runOut fuel env gs m = RunOut.returned (publish m3) := by
  unfold runOut
  simp only [h, hc]

theorem run_inLoop {σ : Type} {fuel : Nat} {env : Env σ} {gs : GourceSettings}
    {m m2 : RLogMill σ}
    (h : tryCatch fuel env gs gs.log_format (m.setState LOGMILL_STATE_FETCHING) =
      AfterTry.inLoop m2) :
    run fuel env gs m = m2 := by
  unfold run
  rw [runOut_inLoop h]
  rfl

theorem run_uncaught {σ : Type} {fuel : Nat} {env : Env σ} {gs : GourceSettings}
    {m m2 : RLogMill σ}
    (h : tryCatch fuel env gs gs.log_format (m.setState LOGMILL_STATE_FETCHING) =
      AfterTry.past m2)
    (hc : classify env gs gs.log_format m2 = none) :
    run fuel env gs m = m2 := by
  unfold run
  rw [runOut_uncaught h hc]
  rfl

theorem run_returned {σ : Type} {fuel : Nat} {env : Env σ} {gs : GourceSettings}
    {m m2 m3 : RLogMill σ}
    (h : tryCatch fuel env gs gs.log_format (m.setState LOGMILL_STATE_FETCHING) =
      AfterTry.past m2)
    (hc : classify env gs gs.log_format m2 = some m3) :
    run fuel env gs m = publish m3 := by
  unfold run
  rw [runOut_returned h hc]
  rfl

theorem failureText_ne_empty (isDir : Bool) (lf : String) (a b : Int) :
    failureText isDir lf a b ≠ "" := by
  unfold failureText
  repeat' split
  all_goals decide

/-- The classification text looks at the hint only to test whether it is
empty. -/
theorem failureText_hint (isDir : Bool) (h1 h2 : String) (a b : Int)
    (hn1 : h1 ≠ "") (hn2 : h2 ≠ "") :
    failureText isDir h1 a b = failureText isDir h2 a b := by
  unfold failureText
  simp only [hn1, hn2, if_false]

theorem classify_noop {σ : Type} (env : Env σ) (gs : GourceSettings) (lf : String)
    (m : RLogMill σ) (h : m.clog ≠ none ∨ m.error ≠ "") :
    classify env gs lf m = some m := by
  unfold classify
  have hc : (m.clog.isNone && m.error.length == 0) = false := by
    rcases h with h | h
    · cases hcl : m.clog with
      | none => exact absurd hcl h
      | some x => rfl
    · have : m.error.length ≠ 0 := fun h0 => h ((length_eq_zero_iff _).mp h0)
      simp [this]
  rw [hc]
  rfl

theorem classify_cond {σ : Type} (m : RLogMill σ) (hc : m.clog = none) (he : m.error = "") :
    (m.clog.isNone && m.error.length == 0) = true := by
  rw [hc, he]; rfl

theorem length_beq_zero (lf : String) : (lf.length == 0) = decide (lf = "") := by
  by_cases h : lf = ""
  · subst h; rfl
  · have : lf.length ≠ 0 := fun h0 => h ((length_eq_zero_iff _).mp h0)
    simp [h, this]

/-- The classification block when there is no handle and no error, the
directory test answers `d`, and the `_WIN32` branch is out of reach (build
without `_WIN32`, or a non-empty hint). -/
theorem classify_error {σ : Type} (env : Env σ) (gs : GourceSettings) (lf : String)
    (m : RLogMill σ) (d : Bool) (hc : m.clog = none) (he : m.error = "")
    (hw : env.win32 = false ∨ lf ≠ "") (hd : env.is_directory m.logfile = some d) :
    classify env gs lf m =
      some { m with error := failureText d lf gs.start_timestamp gs.stop_timestamp } := by
  unfold classify failureText
  rw [classify_cond m hc he, length_beq_zero, hd]
  cases d with
  | false => simp
  | true =>
    by_cases hf : lf = ""
    · rcases hw with hw | hw
      · simp [hf, hw]
      · exact absurd hf hw
    · by_cases h1 : gs.start_timestamp = 0
      · by_cases h2 : gs.stop_timestamp = 0
        · simp [hf, h1, h2]
        · simp [hf, h1, h2]
      · simp [hf, h1]

/-- The classification block is left by the exception when there is no handle,
no error, and the directory test throws. -/
theorem classify_throw {σ : Type} (env : Env σ) (gs : GourceSettings) (lf : String)
    (m : RLogMill σ) (hc : m.clog = none) (he : m.error = "")
    (hd : env.is_directory m.logfile = none) :
    classify env gs lf m = none := by
  unfold classify
  rw [classify_cond m hc he, hd]
  rfl

/-- On a build without `_WIN32`, what the classification block returned: the
chosen text when there was neither handle nor error, the resolver unchanged
otherwise. -/
theorem classify_some_cases {σ : Type} {env : Env σ} {gs : GourceSettings} {lf : String}
    {m m3 : RLogMill σ} (hw : env.win32 = false) (h : classify env gs lf m = some m3) :
    (m.clog = none ∧ m.error = "" ∧ ∃ d, env.is_directory m.logfile = some d ∧
        m3.error = failureText d lf gs.start_timestamp gs.stop_timestamp) ∨
    ((m.clog ≠ none ∨ m.error ≠ "") ∧ m3 = m) := by
  by_cases h0 : m.clog ≠ none ∨ m.error ≠ ""
  · right
    rw [classify_noop env gs lf m h0] at h
    injection h with h
    exact ⟨h0, h.symm⟩
  · left
    have hc : m.clog = none := by
      by_contra hx; exact h0 (Or.inl hx)
    have he : m.error = "" := by
      by_contra hx; exact h0 (Or.inr hx)
    cases hd : env.is_directory m.logfile with
    | none =>
      rw [classify_throw env gs lf m hc he hd] at h
      cases h
    | some d =>
      rw [classify_error env gs lf m d hc he (Or.inl hw) hd] at h
      injection h with h
      exact ⟨hc, he, d, rfl, by rw [← h]⟩

/-- The status `publish` writes follows `clog` alone. -/
theorem publish_fields {σ : Type} (m : RLogMill σ) :
    (publish m).clog = m.clog ∧ (publish m).error = m.error ∧
    (publish m).logmill_thread_state =
      (if m.clog.isSome then LOGMILL_STATE_SUCCESS else LOGMILL_STATE_FAILURE) ∧
    (publish m).history = m.history ++
      [Step.status (if m.clog.isSome then LOGMILL_STATE_SUCCESS else LOGMILL_STATE_FAILURE)] :=
  ⟨rfl, rfl, rfl, rfl⟩

/-- The members of the resolver once `run()` has returned. -/
theorem run_returned_fields {σ : Type} {fuel : Nat} {env : Env σ} {gs : GourceSettings}
    {m m2 m3 : RLogMill σ}
    (h : tryCatch fuel env gs gs.log_format (m.setState LOGMILL_STATE_FETCHING) =
      AfterTry.past m2)
    (hc : classify env gs gs.log_format m2 = some m3) :
    (run fuel env gs m).clog = m2.clog ∧
    (run fuel env gs m).error = m3.error ∧
    (run fuel env gs m).logmill_thread_state =
      (if m2.clog.isSome then LOGMILL_STATE_SUCCESS else LOGMILL_STATE_FAILURE) := by
  have hclog := (classify_frame hc).2.1
  rw [run_returned h hc]
  refine ⟨?_, rfl, ?_⟩
  · rw [(publish_fields _).1, hclog]
  · rw [(publish_fields _).2.2.1, hclog]

/-- Once `run()` has returned the resolver is finished. -/
theorem run_returned_finished {σ : Type} {fuel : Nat} {env : Env σ} {gs : GourceSettings}
    {m m2 m3 : RLogMill σ}
    (h : tryCatch fuel env gs gs.log_format (m.setState LOGMILL_STATE_FETCHING) =
      AfterTry.past m2)
    (hc : classify env gs gs.log_format m2 = some m3) :
    (run fuel env gs m).isFinished = true := by
  unfold RLogMill.isFinished
  rw [(run_returned_fields h hc).2.2]
  cases m2.clog.isSome <;> decide

/-- While the worker is inside the seek loop the resolver is not finished. -/
theorem run_inLoop_not_finished {σ : Type} {fuel : Nat} {env : Env σ} {gs : GourceSettings}
    {logfile : String} {m2 : RLogMill σ}
    (h : tryCatch fuel env gs gs.log_format
      ((RLogMill.new logfile : RLogMill σ).setState LOGMILL_STATE_FETCHING) =
        AfterTry.inLoop m2) :
    (run fuel env gs (RLogMill.new logfile)).isFinished = false := by
  rw [run_inLoop h]
  obtain ⟨⟨_, hb, _⟩, _⟩ := tryCatch_inLoop h
  unfold RLogMill.isFinished
  rw [hb]
  rfl

/-- When `run()` is left by the uncaught exception the resolver is not
finished. -/
theorem run_uncaught_not_finished {σ : Type} {fuel : Nat} {env : Env σ}
    {gs : GourceSettings} {logfile : String} {m2 : RLogMill σ}
    (h : tryCatch fuel env gs gs.log_format
      ((RLogMill.new logfile : RLogMill σ).setState LOGMILL_STATE_FETCHING) =
        AfterTry.past m2)
    (hc : classify env gs gs.log_format m2 = none) :
    (run fuel env gs (RLogMill.new logfile)).isFinished = false := by
  rw [run_uncaught h hc]
  obtain ⟨⟨_, hb, _⟩, _⟩ := tryCatch_past h
  unfold RLogMill.isFinished
  rw [hb]
  rfl

/-- A finished resolver is one whose worker got past the `try` statement and
through the classification block. -/
theorem run_finished_cases {σ : Type} {fuel : Nat} {env : Env σ} {gs : GourceSettings}
    {logfile : String}
    (hfin : (run fuel env gs (RLogMill.new logfile)).isFinished = true) :
    ∃ m2 m3, tryCatch fuel env gs gs.log_format
        ((RLogMill.new logfile : RLogMill σ).setState LOGMILL_STATE_FETCHING) =
          AfterTry.past m2 ∧
      classify env gs gs.log_format m2 = some m3 := by
  cases ht : tryCatch fuel env gs gs.log_format
      ((RLogMill.new logfile : RLogMill σ).setState LOGMILL_STATE_FETCHING) with
  | inLoop m2 =>
    rw [run_inLoop_not_finished ht] at hfin
    cases hfin
  | past m2 =>
    cases hc : classify env gs gs.log_format m2 with
    | none =>
      rw [run_uncaught_not_finished ht hc] at hfin
      cases hfin
    | some m3 => exact ⟨m2, m3, rfl, hc⟩

theorem getLog_fst {σ : Type} (m : RLogMill σ) : m.getLog.1 = m.clog := by
  unfold RLogMill.getLog
  cases m.thread <;> rfl

/-- What the caller sees when the worker got past the `try` statement with no
handle and no error and the directory test answered `d` (build without
`_WIN32`, or non-empty hint): no handle, the classification text, `FAILURE`. -/
theorem run_no_handle {σ : Type} {fuel : Nat} {env : Env σ} {gs : GourceSettings}
    {logfile : String} {m2 : RLogMill σ} {d : Bool}
    (h : tryCatch fuel env gs gs.log_format
      ((RLogMill.new logfile : RLogMill σ).setState LOGMILL_STATE_FETCHING) =
        AfterTry.past m2)
    (hc : m2.clog = none) (he : m2.error = "")
    (hw : env.win32 = false ∨ gs.log_format ≠ "")
    (hd : env.is_directory logfile = some d) :
    runOut fuel env gs (RLogMill.new logfile) =
      RunOut.returned (run fuel env gs (RLogMill.new logfile)) ∧
    (run fuel env gs (RLogMill.new logfile)).clog = none ∧
    (run fuel env gs (RLogMill.new logfile)).error =
      failureText d gs.log_format gs.start_timestamp gs.stop_timestamp ∧
    (run fuel env gs (RLogMill.new logfile)).logmill_thread_state =
      LOGMILL_STATE_FAILURE := by
  have hlf := tryCatch_past_logfile h
  rw [← hlf] at hd
  have hcl := classify_error env gs gs.log_format m2 d hc he hw hd
  obtain ⟨f1, f2, f3⟩ := run_returned_fields h hcl
  refine ⟨?_, ?_, ?_, ?_⟩
  · rw [runOut_returned h hcl, run_returned h hcl]
  · rw [f1, hc]
  · rw [f2]
  · rw [f3, hc]; rfl

/-- The uncaught path at a concrete input: no reader accepts the source and
`is_directory` throws at line 99, outside the `try` statement; `run()` is left
by the exception, no terminal status is written and the error string stays
empty. -/
theorem run_unreadable_path :
    runOut 1 unreadableEnv ⟨"", 0, 0, fun _ => false, false⟩ (RLogMill.new "/secret/log.txt") =
      RunOut.uncaught
        (run 1 unreadableEnv ⟨"", 0, 0, fun _ => false, false⟩
          (RLogMill.new "/secret/log.txt")) ∧
    (run 1 unreadableEnv ⟨"", 0, 0, fun _ => false, false⟩
      (RLogMill.new "/secret/log.txt")).getStatus = LOGMILL_STATE_FETCHING ∧
    (run 1 unreadableEnv ⟨"", 0, 0, fun _ => false, false⟩
      (RLogMill.new "/secret/log.txt")).isFinished = false ∧
    (run 1 unreadableEnv ⟨"", 0, 0, fun _ => false, false⟩
      (RLogMill.new "/secret/log.txt")).getError = "" :=
  ⟨rfl, rfl, rfl, rfl⟩

/-! ## C2: handle and error at the terminal state -/

theorem catchExn_error_ne_empty {σ : Type} (m : RLogMill σ) (e : Exn) :
    (catchExn m e).error ≠ "" ↔ e ≠ Exn.sdlApp "" := by
  cases e with
  | seekLog =>
    simp only [catchExn, ne_eq, reduceCtorEq, not_false_eq_true, iff_true]
    decide
  | sdlApp w =>
    simp only [catchExn, ne_eq, Exn.sdlApp.injEq]

/-- C2, refuted as stated: on a build without `_WIN32`, a source that validates
(empty hint, path `-`) and whose `nextCommit` raises `SeekLogException` during
the start-timestamp seek ends with status `SUCCESS`, a non-null handle and the
error string `unable to read log file`: both hold, not exactly one. -/
theorem terminal_invariant_counterexample :
    (raisingReadEnv Exn.seekLog).win32 = false ∧
    (run 1 (raisingReadEnv Exn.seekLog) ⟨"", 5, 0, fun _ => false, false⟩
      (RLogMill.new "-")).getStatus = LOGMILL_STATE_SUCCESS ∧
    (run 1 (raisingReadEnv Exn.seekLog) ⟨"", 5, 0, fun _ => false, false⟩
      (RLogMill.new "-")).clog = some ⟨Variant.mal4s, ()⟩ ∧
    (run 1 (raisingReadEnv Exn.seekLog) ⟨"", 5, 0, fun _ => false, false⟩
      (RLogMill.new "-")).error = "unable to read log file" ∧
    ¬ (((run 1 (raisingReadEnv Exn.seekLog) ⟨"", 5, 0, fun _ => false, false⟩
          (RLogMill.new "-")).clog ≠ none ∧
        (run 1 (raisingReadEnv Exn.seekLog) ⟨"", 5, 0, fun _ => false, false⟩
          (RLogMill.new "-")).error = "") ∨
      ((run 1 (raisingReadEnv Exn.seekLog) ⟨"", 5, 0, fun _ => false, false⟩
          (RLogMill.new "-")).clog = none ∧
        (run 1 (raisingReadEnv Exn.seekLog) ⟨"", 5, 0, fun _ => false, false⟩
          (RLogMill.new "-")).error ≠ "")) := by
  refine ⟨rfl, rfl, rfl, rfl, ?_⟩
  decide

/-- What the members look like at a terminal status on a build without
`_WIN32`, by case analysis on how the `try` block was left. -/
theorem run_terminal_analysis {σ : Type} (fuel : Nat) (env : Env σ) (gs : GourceSettings)
    (logfile : String) (hw : env.win32 = false)
    (hfin : (run fuel env gs (RLogMill.new logfile)).isFinished = true) :
    ((run fuel env gs (RLogMill.new logfile)).clog ≠ none ∨
      (run fuel env gs (RLogMill.new logfile)).error ≠ "") ∧
    (((run fuel env gs (RLogMill.new logfile)).clog ≠ none ∧
        (run fuel env gs (RLogMill.new logfile)).error ≠ "") ↔
      ∃ m2 e, tryBlock fuel env gs gs.log_format
          ((RLogMill.new logfile : RLogMill σ).setState LOGMILL_STATE_FETCHING) =
            TryOut.raised m2 e ∧
        m2.clog ≠ none ∧ e ≠ Exn.sdlApp "") ∧
    ((run fuel env gs (RLogMill.new logfile)).getStatus = LOGMILL_STATE_SUCCESS ↔
      (run fuel env gs (RLogMill.new logfile)).clog ≠ none) ∧
    ((run fuel env gs (RLogMill.new logfile)).getStatus = LOGMILL_STATE_FAILURE ↔
      (run fuel env gs (RLogMill.new logfile)).clog = none) := by
  obtain ⟨m2, m3, hpast, hcl⟩ := run_finished_cases hfin
  obtain ⟨f1, f2, f3⟩ := run_returned_fields hpast hcl
  have hfr := tryBlock_frame fuel env gs gs.log_format
    ((RLogMill.new logfile : RLogMill σ).setState LOGMILL_STATE_FETCHING)
  have hcases := classify_some_cases hw hcl
  unfold RLogMill.getStatus
  rw [f1, f2, f3]
  cases ht : tryBlock fuel env gs gs.log_format
      ((RLogMill.new logfile : RLogMill σ).setState LOGMILL_STATE_FETCHING) with
  | running m0 =>
    rw [tryCatch_of_running ht] at hpast
    cases hpast
  | completed m0 =>
    rw [tryCatch_of_completed ht] at hpast
    injection hpast with hpast
    subst hpast
    rw [ht] at hfr
    have he : m0.error = "" := hfr.2.1
    rcases hcases with ⟨hc, -, d, -, h3⟩ | ⟨h0, h3⟩
    · have hft := failureText_ne_empty d gs.log_format gs.start_timestamp gs.stop_timestamp
      rw [h3, hc]
      simp [hft, LOGMILL_STATE_SUCCESS, LOGMILL_STATE_FAILURE]
    · rw [h3, he]
      cases hcl0 : m0.clog with
      | none =>
        rcases h0 with h0 | h0
        · exact absurd hcl0 h0
        · exact absurd he h0
      | some x => simp [LOGMILL_STATE_SUCCESS, LOGMILL_STATE_FAILURE]
  | raised m0 e =>
    rw [tryCatch_of_raised ht] at hpast
    injection hpast with hpast
    subst hpast
    have hcc := (catchExn_frame m0 e).2.1
    have hce := catchExn_error_ne_empty m0 e
    rw [hcc] at hcases ⊢
    rcases hcases with ⟨hc, -, d, -, h3⟩ | ⟨h0, h3⟩
    · have hft := failureText_ne_empty d gs.log_format gs.start_timestamp gs.stop_timestamp
      rw [h3, hc]
      simp [hft, hc, LOGMILL_STATE_SUCCESS, LOGMILL_STATE_FAILURE]
    · rw [h3]
      cases hcl0 : m0.clog with
      | none =>
        have h1 : (catchExn m0 e).error ≠ "" := by
          rcases h0 with h0 | h0
          · exact absurd hcl0 h0
          · exact h0
        simp [h1, hcl0, LOGMILL_STATE_SUCCESS, LOGMILL_STATE_FAILURE]
      | some x =>
        by_cases h1 : (catchExn m0 e).error = ""
        · have h2 : ¬ e ≠ Exn.sdlApp "" := fun h => (hce.mpr h) h1
          simp [h1, hcl0, h2, LOGMILL_STATE_SUCCESS, LOGMILL_STATE_FAILURE]
          exact not_not.mp h2
        · have h2 : e ≠ Exn.sdlApp "" := hce.mp h1
          simp [h1, hcl0, h2, LOGMILL_STATE_SUCCESS, LOGMILL_STATE_FAILURE]
          exact ⟨m0, e, ⟨rfl, rfl⟩, by simp [hcl0], h2⟩

/-- C2, amended. On a build without `_WIN32`, once the status is `SUCCESS` or
`FAILURE`: at least one of {handle non-null, error non-empty} holds; both hold
exactly when the `try` block was left by an exception raised during the seek,
after a successful probe (a `SeekLogException`, or an `SDLAppException` with
non-empty message), so exactly one holds in every other run; and the status is
`SUCCESS` exactly when the handle is non-null, `FAILURE` exactly when it is
null. -/
theorem terminal_handle_or_error {σ : Type} (fuel : Nat) (env : Env σ) (gs : GourceSettings)
    (logfile : String) (hw : env.win32 = false)
    (hfin : (run fuel env gs (RLogMill.new logfile)).isFinished = true) :
    ((run fuel env gs (RLogMill.new logfile)).clog ≠ none ∨
      (run fuel env gs (RLogMill.new logfile)).error ≠ "") ∧
    (((run fuel env gs (RLogMill.new logfile)).clog ≠ none ∧
        (run fuel env gs (RLogMill.new logfile)).error ≠ "") ↔
      ∃ m2 e, tryBlock fuel env gs gs.log_format
          ((RLogMill.new logfile : RLogMill σ).setState LOGMILL_STATE_FETCHING) =
            TryOut.raised m2 e ∧
        m2.clog ≠ none ∧ e ≠ Exn.sdlApp "") ∧
    ((run fuel env gs (RLogMill.new logfile)).getStatus = LOGMILL_STATE_SUCCESS ↔
      (run fuel env gs (RLogMill.new logfile)).clog ≠ none) ∧
    ((run fuel env gs (RLogMill.new logfile)).getStatus = LOGMILL_STATE_FAILURE ↔
      (run fuel env gs (RLogMill.new logfile)).clog = none) :=
  run_terminal_analysis fuel env gs logfile hw hfin

/-- Witness of C2 (amended): a source that validates as mal4s, no seek. -/
theorem terminal_handle_or_error_witness :
    (listEnv (fun _ => true) [commitAt 5] (fun _ => false)).win32 = false ∧
    (run 1 (listEnv (fun _ => true) [commitAt 5] (fun _ => false))
      ⟨"", 0, 0, fun _ => false, false⟩ (RLogMill.new "-")).isFinished = true ∧
    ((run 1 (listEnv (fun _ => true) [commitAt 5] (fun _ => false))
        ⟨"", 0, 0, fun _ => false, false⟩ (RLogMill.new "-")).clog ≠ none ∨
      (run 1 (listEnv (fun _ => true) [commitAt 5] (fun _ => false))
        ⟨"", 0, 0, fun _ => false, false⟩ (RLogMill.new "-")).error ≠ "") :=
  ⟨rfl, rfl,
    (terminal_handle_or_error 1 (listEnv (fun _ => true) [commitAt 5] (fun _ => false))
      ⟨"", 0, 0, fun _ => false, false⟩ "-" rfl rfl).1⟩

/-! ## C5: failure classification -/

/-- C6, refuted as stated: when the `mal4s` constructor raises an
`SDLAppException` whose message is empty, `getError()` at the terminal state is
the classification text, not the (empty) message. -/
theorem app_failure_counterexample :
    tryBlock 1 (raisingCreateEnv (Exn.sdlApp "")) ⟨"", 0, 0, fun _ => false, false⟩ ""
        ((RLogMill.new "log.txt").setState LOGMILL_STATE_FETCHING) =
      TryOut.raised
        (((RLogMill.new "log.txt").setState LOGMILL_STATE_FETCHING).probed
          [Event.fatal, Event.create Variant.mal4s])
        (Exn.sdlApp "") ∧
    (run 1 (raisingCreateEnv (Exn.sdlApp "")) ⟨"", 0, 0, fun _ => false, false⟩
        (RLogMill.new "log.txt")).isFinished = true ∧
    (run 1 (raisingCreateEnv (Exn.sdlApp "")) ⟨"", 0, 0, fun _ => false, false⟩
        (RLogMill.new "log.txt")).getError =
      "unsupported log format (you may need to regenerate your log file)" ∧
    (run 1 (raisingCreateEnv (Exn.sdlApp "")) ⟨"", 0, 0, fun _ => false, false⟩
        (RLogMill.new "log.txt")).getError ≠ "" := by
  refine ⟨rfl, rfl, rfl, ?_⟩
  decide

/-- C6, amended. If the `try` block of `run()` is left by an `SDLAppException`
with message `msg` (raised inside `fetchLog` or inside the seek), the exception
is caught, and: when `msg` is not empty or the exception was raised during the
seek (the handle being already assigned), `run()` returns with a terminal
status and `getError()` is exactly `msg`; when an empty message is raised out
of `fetchLog` on a build without `_WIN32` and `is_directory(logfile)` answers,
`run()` returns with a terminal status and `getError()` is the failure
classification's text computed from that answer and the settings. -/
theorem app_failure_passed_through {σ : Type} (fuel : Nat) (env : Env σ)
    (gs : GourceSettings) (logfile : String) (m2 : RLogMill σ) (msg : String)
    (ht : tryBlock fuel env gs gs.log_format
      ((RLogMill.new logfile : RLogMill σ).setState LOGMILL_STATE_FETCHING) =
        TryOut.raised m2 (Exn.sdlApp msg)) :
    ((msg ≠ "" ∨ m2.clog ≠ none) →
      runOut fuel env gs (RLogMill.new logfile) =
        RunOut.returned (run fuel env gs (RLogMill.new logfile)) ∧
      (run fuel env gs (RLogMill.new logfile)).isFinished = true ∧
      (run fuel env gs (RLogMill.new logfile)).getError = msg) ∧
    (∀ d, msg = "" → m2.clog = none → env.win32 = false →
      env.is_directory logfile = some d →
      runOut fuel env gs (RLogMill.new logfile) =
        RunOut.returned (run fuel env gs (RLogMill.new logfile)) ∧
      (run fuel env gs (RLogMill.new logfile)).isFinished = true ∧
      (run fuel env gs (RLogMill.new logfile)).getError =
        failureText d gs.log_format gs.start_timestamp gs.stop_timestamp) := by
  have hpast := tryCatch_of_raised ht
  refine ⟨?_, ?_⟩
  · intro h
    have hn : (catchExn m2 (Exn.sdlApp msg)).clog ≠ none ∨
        (catchExn m2 (Exn.sdlApp msg)).error ≠ "" := by
      rcases h with h | h
      · exact Or.inr h
      · exact Or.inl h
    have hcl := classify_noop env gs gs.log_format _ hn
    refine ⟨?_, run_returned_finished hpast hcl, ?_⟩
    · rw [runOut_returned hpast hcl, run_returned hpast hcl]
    · unfold RLogMill.getError
      rw [(run_returned_fields hpast hcl).2.1]
      rfl
  · intro d h1 h2 hw hd
    have hc : (catchExn m2 (Exn.sdlApp msg)).clog = none := h2
    have he : (catchExn m2 (Exn.sdlApp msg)).error = "" := h1
    obtain ⟨r1, -, r3, r4⟩ := run_no_handle hpast hc he (Or.inl hw) hd
    refine ⟨r1, ?_, r3⟩
    unfold RLogMill.isFinished
    rw [r4]
    decide

/-- Witness of C6 (amended): `nextCommit` raises `SDLAppException("boom")`
during the seek. -/
theorem app_failure_passed_through_witness :
    (run 1 (raisingReadEnv (Exn.sdlApp "boom")) ⟨"", 5, 0, fun _ => false, false⟩
      (RLogMill.new "-")).isFinished = true ∧
    (run 1 (raisingReadEnv (Exn.sdlApp "boom")) ⟨"", 5, 0, fun _ => false, false⟩
      (RLogMill.new "-")).getError = "boom" :=
  have h := app_failure_passed_through 1 (raisingReadEnv (Exn.sdlApp "boom"))
    ⟨"", 5, 0, fun _ => false, false⟩ "-"
    ⟨"-", LOGMILL_STATE_FETCHING, some ⟨Variant.mal4s, ()⟩, "", true,
      [Step.status LOGMILL_STATE_STARTUP, Step.status LOGMILL_STATE_FETCHING,
       Step.probe (Event.create Variant.mal4s), Step.probe (Event.check Variant.mal4s)]⟩
    "boom" rfl
  ⟨(h.1 (Or.inl (by decide))).2.1, (h.1 (Or.inl (by decide))).2.2⟩

/-! ## C10: the status field -/

theorem tryVariant_no_fatal {σ : Type} (env : Env σ) (logfile : String) (v : Variant) :
    Event.fatal ∉ (tryVariant env logfile v).1 := by
  intro h
  rcases tryVariant_cases env logfile v with ⟨e, _, ht⟩ | ⟨s, e, _, _, ht⟩ |
    ⟨s, s', _, _, ht⟩ | ⟨s, s', _, _, ht⟩ <;>
  · rw [ht] at h
    simp at h

theorem andThen_mem {σ : Type} (p q : Probe σ) (e : Event)
    (h : e ∈ (Probe.andThen p q).1) : e ∈ p.1 ∨ e ∈ q.1 := by
  rcases p with ⟨ev, r⟩
  cases r with
  | error x => exact Or.inl h
  | ok o =>
    cases o with
    | none => exact List.mem_append.mp h
    | some x => exact Or.inl h

/-- C7, refuted as stated: with no hint and the path `log.txt` (not `-`), a
source that validates ends with status `SUCCESS` and an empty error string. -/
theorem missing_format_counterexample :
    "log.txt" ≠ "-" ∧
    (run 1 (listEnv (fun _ => true) [commitAt 5] (fun _ => false))
      ⟨"", 0, 0, fun _ => false, false⟩ (RLogMill.new "log.txt")).isFinished = true ∧
    (run 1 (listEnv (fun _ => true) [commitAt 5] (fun _ => false))
      ⟨"", 0, 0, fun _ => false, false⟩ (RLogMill.new "log.txt")).getStatus =
        LOGMILL_STATE_SUCCESS ∧
    (run 1 (listEnv (fun _ => true) [commitAt 5] (fun _ => false))
      ⟨"", 0, 0, fun _ => false, false⟩ (RLogMill.new "log.txt")).getError = "" := by
  refine ⟨by decide, rfl, rfl, rfl⟩

/-- C7, amended. With an empty hint and a path other than `-`, `fetchLog`
reports the condition on `stderr`: the diagnostic line is the first thing it
does, it is written once, and the auto-detect sequence follows as for any other
path; the error string is not the channel: on a build without `_WIN32`, at a
terminal status `getError()` is non-empty exactly when no handle was produced
or an exception (other than an `SDLAppException` with empty message) was raised
during the seek. -/
theorem missing_format_reported_on_stderr {σ : Type} (fuel : Nat) (env : Env σ)
    (gs : GourceSettings) (logfile : String)
    (hf : gs.log_format = "") (hp : logfile ≠ "-") :
    (fetchLog env logfile gs.log_format).1.head? = some Event.fatal ∧
    (fetchLog env logfile gs.log_format).1.count Event.fatal = 1 ∧
    (fetchLog env logfile gs.log_format =
      (Event.fatal ::
        (Probe.andThen (tryVariant env logfile Variant.mal4s)
          (tryVariant env logfile Variant.custom)).1,
       (Probe.andThen (tryVariant env logfile Variant.mal4s)
          (tryVariant env logfile Variant.custom)).2)) ∧
    (env.win32 = false → (run fuel env gs (RLogMill.new logfile)).isFinished = true →
      ((run fuel env gs (RLogMill.new logfile)).getError ≠ "" ↔
        (run fuel env gs (RLogMill.new logfile)).clog = none ∨
        ∃ m2 e, tryBlock fuel env gs gs.log_format
            ((RLogMill.new logfile : RLogMill σ).setState LOGMILL_STATE_FETCHING) =
              TryOut.raised m2 e ∧
          m2.clog ≠ none ∧ e ≠ Exn.sdlApp "")) := by
  have hpre : fatalLine logfile = [Event.fatal] := by
    unfold fatalLine
    simp [hp]
  have hsplit := fetchLog_auto_split env logfile
  rw [hpre] at hsplit
  rw [hf]
  refine ⟨?_, ?_, ?_, ?_⟩
  · rw [hsplit]; rfl
  · rw [hsplit]
    have hz : ((Probe.andThen (tryVariant env logfile Variant.mal4s)
        (tryVariant env logfile Variant.custom)).1).count Event.fatal = 0 := by
      rw [List.count_eq_zero]
      intro hmem
      rcases andThen_mem _ _ _ hmem with h | h
      · exact tryVariant_no_fatal env logfile _ h
      · exact tryVariant_no_fatal env logfile _ h
    simp only [List.singleton_append, List.count_cons_self, hz]
  · rw [hsplit]; rfl
  · intro hw hfin
    have hA := run_terminal_analysis fuel env gs logfile hw hfin
    rw [hf] at hA
    obtain ⟨h1, h2, -, -⟩ := hA
    unfold RLogMill.getError
    constructor
    · intro he
      by_cases hc : (run fuel env gs (RLogMill.new logfile)).clog = none
      · exact Or.inl hc
      · exact Or.inr (h2.mp ⟨hc, he⟩)
    · rintro (hc | hr)
      · rcases h1 with h1 | h1
        · exact absurd hc h1
        · exact h1
      · exact (h2.mpr hr).2

/-- Witness of C7 (amended): path `log.txt`, no hint. -/
theorem missing_format_reported_on_stderr_witness :
    "log.txt" ≠ "-" ∧
    (fetchLog (listEnv (fun _ => true) [commitAt 5] (fun _ => false)) "log.txt" "").1 =
      [Event.fatal, Event.create Variant.mal4s, Event.check Variant.mal4s] ∧
    (fetchLog (listEnv (fun _ => true) [commitAt 5] (fun _ => false)) "log.txt" "").1.head? =
      some Event.fatal :=
  ⟨by decide, rfl,
    (missing_format_reported_on_stderr 1 (listEnv (fun _ => true) [commitAt 5] (fun _ => false))
      ⟨"", 0, 0, fun _ => false, false⟩ "log.txt" rfl (by decide)).1⟩

/-! ## C8: a hint that names no variant -/

theorem variantNamed_ne_empty {hint : String} {v : Variant}
    (h : variantNamed hint = some v) : hint ≠ "" := by
  intro h0
  rw [h0] at h
  have hn : variantNamed "" = none := by decide
  rw [hn] at h
  cases h

/-- When `fetchLog` returns null the `try` block completes with a null `clog`. -/
theorem tryBlock_of_none {σ : Type} (fuel : Nat) (env : Env σ) (gs : GourceSettings)
    (lf : String) (m : RLogMill σ) (h : (fetchLog env m.logfile lf).2 = .ok none) :
    tryBlock fuel env gs lf m =
      TryOut.completed { m.probed (fetchLog env m.logfile lf).1 with clog := none } := by
  unfold tryBlock
  simp only [h]

/-- C8, refuted as stated: on a plain file no reader accepts, the hint `svn`
(which names no variant) and the hint `custom` (whose reader rejects the file)
give the caller the same handle, error string and status. -/
theorem unknown_format_counterexample :
    variantNamed "svn" = none ∧ variantNamed "custom" = some Variant.custom ∧
    (run 1 (listEnv (fun _ => false) [] (fun _ => false))
        ⟨"svn", 0, 0, fun _ => false, false⟩ (RLogMill.new "log.txt")).outcome =
      (run 1 (listEnv (fun _ => false) [] (fun _ => false))
        ⟨"custom", 0, 0, fun _ => false, false⟩ (RLogMill.new "log.txt")).outcome ∧
    (run 1 (listEnv (fun _ => false) [] (fun _ => false))
        ⟨"svn", 0, 0, fun _ => false, false⟩ (RLogMill.new "log.txt")).outcome =
      (none, "unsupported log format (you may need to regenerate your log file)",
        LOGMILL_STATE_FAILURE) :=
  ⟨rfl, rfl, rfl, rfl⟩

/-- C8, amended. An unknown declared format is not signalled distinctly: for
every path for which `is_directory(logfile)` answers, and for all settings and
behaviours of the readers, a run whose non-empty hint names no variant and a
run, otherwise identical, whose hint names a variant whose `checkFormat`
returned `false` both return from `run()` and present the caller with the same
returned handle (null), the same error string (the classification text) and
the same status (`FAILURE`). -/
theorem unknown_format_same_outcome {σ : Type} (fuel : Nat) (env : Env σ)
    (gs : GourceSettings) (logfile : String) (h1 h2 : String) (v : Variant) (s s' : σ)
    (d : Bool)
    (hn : h1 ≠ "") (hu : variantNamed h1 = none) (hk : variantNamed h2 = some v)
    (hc : env.create v logfile = .ok s) (hr : env.checkFormat v s = .ok (false, s'))
    (hd : env.is_directory logfile = some d) :
    (run fuel env { gs with log_format := h1 } (RLogMill.new logfile)).outcome =
      (run fuel env { gs with log_format := h2 } (RLogMill.new logfile)).outcome ∧
    (run fuel env { gs with log_format := h1 } (RLogMill.new logfile)).outcome =
      (none, failureText d h1 gs.start_timestamp gs.stop_timestamp, LOGMILL_STATE_FAILURE) ∧
    runOut fuel env { gs with log_format := h1 } (RLogMill.new logfile) =
      RunOut.returned (run fuel env { gs with log_format := h1 } (RLogMill.new logfile)) ∧
    runOut fuel env { gs with log_format := h2 } (RLogMill.new logfile) =
      RunOut.returned (run fuel env { gs with log_format := h2 } (RLogMill.new logfile)) := by
  have hn2 : h2 ≠ "" := variantNamed_ne_empty hk
  have f1 : (fetchLog env logfile h1).2 = .ok none := by
    rw [fetchLog_hint env logfile h1 hn, hu]
  have f2 : (fetchLog env logfile h2).2 = .ok none := by
    rw [fetchLog_hint env logfile h2 hn2, hk]
    exact (tryVariant_none_iff env logfile v).mpr ⟨s, s', hc, hr⟩
  have t1 := tryCatch_of_completed
    (tryBlock_of_none fuel env { gs with log_format := h1 } h1
      ((RLogMill.new logfile : RLogMill σ).setState LOGMILL_STATE_FETCHING) f1)
  have t2 := tryCatch_of_completed
    (tryBlock_of_none fuel env { gs with log_format := h2 } h2
      ((RLogMill.new logfile : RLogMill σ).setState LOGMILL_STATE_FETCHING) f2)
  obtain ⟨a1, a2, a3, a4⟩ := run_no_handle t1 rfl rfl (Or.inr hn) hd
  obtain ⟨b1, b2, b3, b4⟩ := run_no_handle t2 rfl rfl (Or.inr hn2) hd
  have o1 : (run fuel env { gs with log_format := h1 } (RLogMill.new logfile)).outcome =
      (none, failureText d h1 gs.start_timestamp gs.stop_timestamp,
        LOGMILL_STATE_FAILURE) := by
    unfold RLogMill.outcome RLogMill.getError RLogMill.getStatus
    rw [getLog_fst, a2, a3, a4]
  have o2 : (run fuel env { gs with log_format := h2 } (RLogMill.new logfile)).outcome =
      (none, failureText d h2 gs.start_timestamp gs.stop_timestamp,
        LOGMILL_STATE_FAILURE) := by
    unfold RLogMill.outcome RLogMill.getError RLogMill.getStatus
    rw [getLog_fst, b2, b3, b4]
  refine ⟨?_, o1, a1, b1⟩
  rw [o1, o2, failureText_hint d h1 h2 _ _ hn hn2]

/-- Witness of C8 (amended): hints `svn` and `custom` on a file the custom
reader rejects. -/
theorem unknown_format_same_outcome_witness :
    "svn" ≠ "" ∧ variantNamed "svn" = none ∧ variantNamed "custom" = some Variant.custom ∧
    (listEnv (fun _ => false) [] (fun _ => false)).is_directory "log.txt" = some false ∧
    (run 1 (listEnv (fun _ => false) [] (fun _ => false))
        { (⟨"", 0, 0, fun _ => false, false⟩ : GourceSettings) with log_format := "svn" }
        (RLogMill.new "log.txt")).outcome =
      (run 1 (listEnv (fun _ => false) [] (fun _ => false))
        { (⟨"", 0, 0, fun _ => false, false⟩ : GourceSettings) with log_format := "custom" }
        (RLogMill.new "log.txt")).outcome :=
  ⟨by decide, rfl, rfl, rfl,
    (unknown_format_same_outcome 1 (listEnv (fun _ => false) [] (fun _ => false))
      ⟨"", 0, 0, fun _ => false, false⟩ "log.txt" "svn" "custom" Variant.custom
      ⟨[], none⟩ ⟨[], none⟩ false (by decide) rfl rfl rfl rfl rfl).1⟩

/-! ## C1: `getLog` -/

/-- C1, refuted as stated: after a worker that finished with the mal4s handle,
the first `getLog()` returns that handle and the second `getLog()` returns it
again, not null. -/
theorem getLog_counterexample :
    (run 1 (listEnv (fun _ => true) [commitAt 5] (fun _ => false))
      ⟨"", 0, 0, fun _ => false, false⟩ (RLogMill.new "-")).isFinished = true ∧
    (run 1 (listEnv (fun _ => true) [commitAt 5] (fun _ => false))
      ⟨"", 0, 0, fun _ => false, false⟩ (RLogMill.new "-")).getLog.1 =
        some ⟨Variant.mal4s, ⟨[commitAt 5], none⟩⟩ ∧
    (run 1 (listEnv (fun _ => true) [commitAt 5] (fun _ => false))
      ⟨"", 0, 0, fun _ => false, false⟩ (RLogMill.new "-")).getLog.2.getLog.1 =
        some ⟨Variant.mal4s, ⟨[commitAt 5], none⟩⟩ ∧
    (run 1 (listEnv (fun _ => true) [commitAt 5] (fun _ => false))
      ⟨"", 0, 0, fun _ => false, false⟩ (RLogMill.new "-")).getLog.2.getLog.1 ≠ none := by
  refine ⟨rfl, rfl, rfl, ?_⟩
  decide

/-- C1, amended. `getLog()` hands out the handle without giving it up: for
every resolver, `getLog()` returns the member `clog` and leaves it unchanged, a
second `getLog()` returns the same handle as the first, and the destructor run
after `getLog()` still deletes that handle when it is not null. -/
theorem getLog_keeps_handle {σ : Type} (m : RLogMill σ) :
    m.getLog.1 = m.clog ∧
    m.getLog.2.clog = m.clog ∧
    m.getLog.2.getLog.1 = m.getLog.1 ∧
    m.getLog.2.thread = false ∧
    m.getLog.2.destroy = m.getLog.1 := by
  unfold RLogMill.destroy RLogMill.abort RLogMill.getLog
  cases ht : m.thread <;> cases hc : m.clog <;> simp [ht, hc]

/-! ## C4: the start-timestamp seek -/

theorem seekLoop_succ {σ : Type} (env : Env σ) (shutdown : Nat → Bool) (T : Int)
    (v : Variant) (fuel k : Nat) (s : σ) :
    seekLoop env shutdown T v (fuel + 1) k s =
      if !shutdown k && !env.isFinished v s then
        match env.nextCommit v s with
        | .error e => SeekOut.raised e s
        | .ok (some commit, s') =>
          if commit.timestamp ≥ T then SeekOut.done (env.bufferCommit v s' commit)
          else seekLoop env shutdown T v fuel (k + 1) s'
        | .ok (none, s') => seekLoop env shutdown T v fuel (k + 1) s'
      else SeekOut.done s := rfl

theorem seekTarget_cons (T : Int) (c : RCommit) (rs : List RCommit) :
    seekTarget T (c :: rs) = if c.timestamp < T then seekTarget T rs else ⟨rs, some c⟩ := by
  unfold seekTarget
  by_cases h : c.timestamp < T
  · simp [List.dropWhile, h]
  · simp [List.dropWhile, h]

theorem seekLoop_listEnv (valid : Variant → Bool) (dir : String → Bool) (all : List RCommit)
    (shutdown : Nat → Bool) (hs : ∀ k, shutdown k = false) (T : Int) (v : Variant) :
    ∀ (records : List RCommit) (fuel k : Nat), records.length < fuel →
      seekLoop (listEnv valid all dir) shutdown T v fuel k ⟨records, none⟩ =
        SeekOut.done (seekTarget T records) := by
  intro records
  induction records with
  | nil =>
    intro fuel k hf
    cases fuel with
    | zero => exact absurd hf (Nat.lt_irrefl 0)
    | succ f =>
      have e1 : (listEnv valid all dir).isFinished v ⟨[], none⟩ = true := rfl
      rw [seekLoop_succ, hs k, e1]
      rfl
  | cons c rs ih =>
    intro fuel k hf
    cases fuel with
    | zero => exact absurd hf (Nat.not_lt_zero _)
    | succ f =>
      have hf' : rs.length < f := by
        simp only [List.length_cons] at hf
        omega
      have e1 : (listEnv valid all dir).isFinished v ⟨c :: rs, none⟩ = false := rfl
      have e2 : (listEnv valid all dir).nextCommit v ⟨c :: rs, none⟩ =
          .ok (some c, ⟨rs, none⟩) := rfl
      have e3 : (listEnv valid all dir).bufferCommit v ⟨rs, none⟩ c = ⟨rs, some c⟩ := rfl
      rw [seekLoop_succ, hs k, e1, e2, seekTarget_cons]
      simp only [Bool.not_false, Bool.and_self, if_true]
      by_cases hc : c.timestamp ≥ T
      · have hlt : ¬ c.timestamp < T := not_lt.mpr hc
        rw [if_pos hc, if_neg hlt, e3]
      · have hlt : c.timestamp < T := not_le.mp hc
        rw [if_neg hc, if_pos hlt, ih f (k + 1) hf']

theorem deliver_succ {σ : Type} (env : Env σ) (v : Variant) (n : Nat) (s : σ) :
    deliver env v (n + 1) s =
      match env.nextCommit v s with
      | .ok (some c, s') => c :: deliver env v n s'
      | _ => [] := rfl

theorem deliver_listEnv_plain (valid : Variant → Bool) (dir : String → Bool)
    (all : List RCommit) (v : Variant) :
    ∀ (records : List RCommit) (n : Nat), records.length ≤ n →
      deliver (listEnv valid all dir) v n ⟨records, none⟩ = records := by
  intro records
  induction records with
  | nil =>
    intro n _
    cases n with
    | zero => rfl
    | succ k => rfl
  | cons c rs ih =>
    intro n hn
    cases n with
    | zero => exact absurd hn (Nat.not_succ_le_zero _)
    | succ k =>
      have hk : rs.length ≤ k := by
        simp only [List.length_cons] at hn
        omega
      have e2 : (listEnv valid all dir).nextCommit v ⟨c :: rs, none⟩ =
          .ok (some c, ⟨rs, none⟩) := rfl
      rw [deliver_succ, e2]
      simp only
      rw [ih k hk]

theorem deliver_seekTarget (valid : Variant → Bool) (dir : String → Bool)
    (all : List RCommit) (v : Variant) (T : Int) (records : List RCommit) (n : Nat)
    (hn : records.length < n) :
    deliver (listEnv valid all dir) v n (seekTarget T records) =
      records.dropWhile (fun c => decide (c.timestamp < T)) := by
  have hlen : (records.dropWhile (fun c => decide (c.timestamp < T))).length ≤
      records.length := (List.dropWhile_sublist _).length_le
  unfold seekTarget
  cases hd : records.dropWhile (fun c => decide (c.timestamp < T)) with
  | nil => exact deliver_listEnv_plain valid dir all v [] n (Nat.zero_le _)
  | cons c rest =>
    rw [hd] at hlen
    simp only [List.length_cons] at hlen
    cases n with
    | zero => exact absurd hn (Nat.not_lt_zero _)
    | succ k =>
      have hk : rest.length ≤ k := by omega
      have e2 : (listEnv valid all dir).nextCommit v ⟨rest, some c⟩ =
          .ok (some c, ⟨rest, none⟩) := rfl
      simp only
      rw [deliver_succ, e2]
      simp only
      rw [deliver_listEnv_plain valid dir all v rest k hk]

theorem andThen_result_some {σ : Type} (p q : Probe σ) (h : Handle σ)
    (hr : (Probe.andThen p q).2 = .ok (some h)) : p.2 = .ok (some h) ∨ q.2 = .ok (some h) := by
  rcases p with ⟨ev, r⟩
  cases r with
  | error x => exact Or.inl hr
  | ok o =>
    cases o with
    | none => exact Or.inr hr
    | some x => exact Or.inl hr

/-- Whatever the hint, a handle returned by `fetchLog` is an object whose
constructor returned and whose `checkFormat` returned `true`. -/
theorem fetchLog_some_validated {σ : Type} (env : Env σ) (logfile hint : String)
    (h : Handle σ) (hr : (fetchLog env logfile hint).2 = .ok (some h)) :
    ∃ s, env.create h.variant logfile = .ok s ∧
      env.checkFormat h.variant s = .ok (true, h.st) := by
  by_cases he : hint = ""
  · subst he
    rw [fetchLog_auto_split] at hr
    rcases andThen_result_some _ _ h hr with h1 | h1
    · have := (tryVariant_some_iff env logfile Variant.mal4s h).mp h1
      rw [this.1]; rw [this.1] at this; exact this.2
    · have := (tryVariant_some_iff env logfile Variant.custom h).mp h1
      rw [this.1]; rw [this.1] at this; exact this.2
  · rw [fetchLog_hint env logfile hint he] at hr
    cases hv : variantNamed hint with
    | none => rw [hv] at hr; cases hr
    | some v =>
      rw [hv] at hr
      have := (tryVariant_some_iff env logfile v h).mp hr
      rw [this.1]; rw [this.1] at this; exact this.2

/-- The `try` block when the probe returned a handle, a start timestamp is
set and the seek loop ended normally. -/
theorem tryBlock_of_seek_done {σ : Type} (fuel : Nat) (env : Env σ) (gs : GourceSettings)
    (lf : String) (m : RLogMill σ) (h : Handle σ) (s : σ)
    (hp : (fetchLog env m.logfile lf).2 = .ok (some h)) (hT : gs.start_timestamp ≠ 0)
    (hs : seekLoop env gs.shutdown gs.start_timestamp h.variant fuel 0 h.st =
      SeekOut.done s) :
    tryBlock fuel env gs lf m =
      TryOut.completed
        { m.probed (fetchLog env m.logfile lf).1 with clog := some ⟨h.variant, s⟩ } := by
  unfold tryBlock
  simp only [hp, hT, ne_eq, not_false_eq_true, if_true, hs]

/-- C4. Seek correctness, for the finite log with push-back described in the
spec: for every list of records, every non-zero start timestamp `T`, the
shutdown flag never observed set, a probe that returned a handle and a fuel
larger than the number of records, `run()` ends with status `SUCCESS` and an
empty error string, and the records `nextCommit` delivers afterwards from the
handle `getLog()` returns are exactly the records from the first one with
timestamp `≥ T` on (the list with its leading records of timestamp `< T`
dropped); when every record has timestamp `< T` nothing is delivered and the
log reports finished. -/
theorem seek_delivers_suffix (valid : Variant → Bool) (dir : String → Bool)
    (records : List RCommit) (gs : GourceSettings) (logfile : String)
    (h : Handle ListLog) (fuel : Nat)
    (hT : gs.start_timestamp ≠ 0) (hs : ∀ k, gs.shutdown k = false)
    (hp : (fetchLog (listEnv valid records dir) logfile gs.log_format).2 = .ok (some h))
    (hfuel : records.length < fuel) :
    (run fuel (listEnv valid records dir) gs (RLogMill.new logfile)).getStatus =
      LOGMILL_STATE_SUCCESS ∧
    (run fuel (listEnv valid records dir) gs (RLogMill.new logfile)).getError = "" ∧
    ∃ h', (run fuel (listEnv valid records dir) gs (RLogMill.new logfile)).getLog.1 = some h' ∧
      h'.variant = h.variant ∧
      (∀ n, records.length < n →
        deliver (listEnv valid records dir) h'.variant n h'.st =
          records.dropWhile (fun c => decide (c.timestamp < gs.start_timestamp))) ∧
      ((∀ c ∈ records, c.timestamp < gs.start_timestamp) →
        (listEnv valid records dir).isFinished h'.variant h'.st = true ∧
        ∀ n, deliver (listEnv valid records dir) h'.variant n h'.st = []) := by
  obtain ⟨s0, hc0, hk0⟩ := fetchLog_some_validated _ _ _ h hp
  have hst : h.st = ⟨records, none⟩ := by
    have e1 : s0 = ⟨records, none⟩ := by
      have : (listEnv valid records dir).create h.variant logfile =
          .ok ⟨records, none⟩ := rfl
      rw [this] at hc0
      injection hc0 with hc0
      exact hc0.symm
    have e2 : (listEnv valid records dir).checkFormat h.variant s0 =
        .ok (valid h.variant, s0) := rfl
    rw [e2] at hk0
    injection hk0 with hk0
    injection hk0 with _ hk0
    rw [← hk0, e1]
  have hseek := seekLoop_listEnv valid dir records gs.shutdown hs gs.start_timestamp
    h.variant records fuel 0 hfuel
  rw [← hst] at hseek
  have hpast := tryCatch_of_completed
    (tryBlock_of_seek_done fuel (listEnv valid records dir) gs gs.log_format
      ((RLogMill.new logfile : RLogMill ListLog).setState LOGMILL_STATE_FETCHING) h
      (seekTarget gs.start_timestamp records) hp hT hseek)
  have hnoop := classify_noop (listEnv valid records dir) gs gs.log_format
    ({ ((RLogMill.new logfile : RLogMill ListLog).setState LOGMILL_STATE_FETCHING).probed
          (fetchLog (listEnv valid records dir) logfile gs.log_format).1 with
        clog := some ⟨h.variant, seekTarget gs.start_timestamp records⟩ })
    (Or.inl (by simp))
  obtain ⟨f1, f2, f3⟩ := run_returned_fields hpast hnoop
  refine ⟨?_, ?_, ⟨h.variant, seekTarget gs.start_timestamp records⟩, ?_, rfl, ?_, ?_⟩
  · unfold RLogMill.getStatus
    rw [f3]; rfl
  · unfold RLogMill.getError
    rw [f2]; rfl
  · unfold RLogMill.getLog
    simp only
    rw [apply_ite RLogMill.clog]
    simp only [ite_self, f1]
  · intro n hn
    exact deliver_seekTarget valid dir records h.variant gs.start_timestamp records n hn
  · intro hall
    have hd : records.dropWhile (fun c => decide (c.timestamp < gs.start_timestamp)) = [] := by
      rw [List.dropWhile_eq_nil_iff]
      intro c hc
      simpa using hall c hc
    have htgt : seekTarget gs.start_timestamp records = ⟨[], none⟩ := by
      unfold seekTarget; rw [hd]
    simp only [htgt]
    refine ⟨rfl, ?_⟩
    intro n
    cases n with
    | zero => rfl
    | succ k => rfl

/-- Witness of C4: records timestamped 5, 10, 15, 20; with `T = 12` the
records 15 and 20 are delivered, with `T = 25` none is. -/
theorem seek_delivers_suffix_witness :
    (∃ h', (run 5 (listEnv (fun _ => true) [commitAt 5, commitAt 10, commitAt 15, commitAt 20]
          (fun _ => false)) ⟨"", 12, 0, fun _ => false, false⟩ (RLogMill.new "-")).getLog.1 =
        some h' ∧
      h'.variant = Variant.mal4s ∧
      (∀ n, 4 < n →
        deliver (listEnv (fun _ => true) [commitAt 5, commitAt 10, commitAt 15, commitAt 20]
          (fun _ => false)) h'.variant n h'.st = [commitAt 15, commitAt 20])) ∧
    (run 5 (listEnv (fun _ => true) [commitAt 5, commitAt 10, commitAt 15, commitAt 20]
        (fun _ => false)) ⟨"", 25, 0, fun _ => false, false⟩ (RLogMill.new "-")).getStatus =
      LOGMILL_STATE_SUCCESS ∧
    (run 5 (listEnv (fun _ => true) [commitAt 5, commitAt 10, commitAt 15, commitAt 20]
        (fun _ => false)) ⟨"", 25, 0, fun _ => false, false⟩ (RLogMill.new "-")).getError = "" ∧
    (∃ h', (run 5 (listEnv (fun _ => true) [commitAt 5, commitAt 10, commitAt 15, commitAt 20]
          (fun _ => false)) ⟨"", 25, 0, fun _ => false, false⟩ (RLogMill.new "-")).getLog.1 =
        some h' ∧
      (listEnv (fun _ => true) [commitAt 5, commitAt 10, commitAt 15, commitAt 20]
          (fun _ => false)).isFinished h'.variant h'.st = true ∧
      (∀ n, deliver (listEnv (fun _ => true) [commitAt 5, commitAt 10, commitAt 15, commitAt 20]
          (fun _ => false)) h'.variant n h'.st = [])) :=
  have h12 := seek_delivers_suffix (fun _ => true) (fun _ => false)
    [commitAt 5, commitAt 10, commitAt 15, commitAt 20]
    ⟨"", 12, 0, fun _ => false, false⟩ "-"
    ⟨Variant.mal4s, ⟨[commitAt 5, commitAt 10, commitAt 15, commitAt 20], none⟩⟩ 5
    (by decide) (fun _ => rfl) rfl (by decide)
  have h25 := seek_delivers_suffix (fun _ => true) (fun _ => false)
    [commitAt 5, commitAt 10, commitAt 15, commitAt 20]
    ⟨"", 25, 0, fun _ => false, false⟩ "-"
    ⟨Variant.mal4s, ⟨[commitAt 5, commitAt 10, commitAt 15, commitAt 20], none⟩⟩ 5
    (by decide) (fun _ => rfl) rfl (by decide)
  ⟨match h12.2.2 with
    | ⟨h', a, b, c, _⟩ => ⟨h', a, b, c⟩,
   h25.1, h25.2.1,
   match h25.2.2 with
    | ⟨h', a, _, _, d⟩ => ⟨h', a, d (by decide)⟩⟩

end LogMill
